import Mathlib

/-!
Shallow embedding of the Nelder-Mead downhill-simplex minimizer
(`optimization::NelderMead::minimize` and `optimization::NelderMead::reflect`)
together with proofs about its ranking pass, convergence test, geometric
operator, evaluation accounting, initialization and access safety.

Doubles are modelled as an arbitrary linear ordered field; `std::vector`
indexing is modelled by `List.getD` (total form, used inside the iteration
where the state is well formed) and by `List.get?` (checked form, used for
the initialization phase where the source derives its dimension and point
counts from the input simplex shape).  The class members `function_tol_`,
`MAX_ITERS_` and `EPSILON_` live in a header that is not among the provided
source files, so they appear here as parameters.
-/

namespace NelderMead

variable {α : Type} [LinearOrderedField α]

/-- Helper: the list `[g 0, g 1, ..., g (n-1)]`.  Used to model the
`for (j = 0; j < n; ++j)` loops that fill a `std::vector` slot by slot. -/
def tabulate {β : Type} (n : Nat) (g : Nat → β) : List β :=
  (List.range n).map g

/-- Ranking result: the indices `index_low`, `index_high`, `index_next_high`
computed by the ordering scan at the top of the iteration loop. -/
structure Rank where
  low : Nat
  high : Nat
  nextHigh : Nat
deriving DecidableEq, Repr

/-- The initialization
`index_high = func_vals_[0] > func_vals_[1] ? (index_next_high = 1, 0) : (index_next_high = 0, 1)`
together with `index_low = 0`. -/
def rankInit (vals : List α) : Rank :=
  if vals.getD 0 0 > vals.getD 1 0 then ⟨0, 0, 1⟩ else ⟨0, 1, 0⟩

/-- One pass of the ranking loop body for index `i`: first the
`func_vals_[i] <= func_vals_[index_low]` update of `index_low`, then the
`>` / `else if` chain updating `index_high` and `index_next_high`. -/
def rankStepFn (vals : List α) (r : Rank) (i : Nat) : Rank :=
  let rl := if vals.getD i 0 ≤ vals.getD r.low 0 then { r with low := i } else r
  if vals.getD i 0 > vals.getD rl.high 0 then
    { rl with nextHigh := rl.high, high := i }
  else if vals.getD i 0 > vals.getD rl.nextHigh 0 ∧ i ≠ rl.high then
    { rl with nextHigh := i }
  else rl

/-- The full ranking scan: initialization followed by the loop over
`i = 0, ..., num_points_ - 1`. -/
def rank (vals : List α) (np : Nat) : Rank :=
  (List.range np).foldl (rankStepFn vals) (rankInit vals)

/-- The trial vertex built inside `reflect`:
`evaluations[j] = dimension_sums[j] * factor1 - simplex[index_worst][j] * factor2`
with `factor1 = (1 - factor) / num_dimensions_` and
`factor2 = factor1 - factor`. -/
def reflectTrial (nd : Nat) (sums worstRow : List α) (factor : α) : List α :=
  tabulate nd fun j =>
    sums.getD j 0 * ((1 - factor) / (nd : α)) -
      worstRow.getD j 0 * ((1 - factor) / (nd : α) - factor)

/-- Result of one `reflect` call: the three by-reference vectors after the
call, and the returned objective value. -/
structure ReflectResult (α : Type) where
  simplex : List (List α)
  vals : List α
  sums : List α
  value : α
deriving DecidableEq

/-- `optimization::NelderMead::reflect`: build the trial vertex, evaluate the
objective there, and commit the trial vertex (updating the worst vertex, its
paired value, and the dimension sums incrementally) only when the trial value
strictly improves on the current worst value.  The trial value is returned in
either case. -/
def reflect (nd : Nat) (f : List α → α) (simplex : List (List α))
    (vals sums : List α) (index_worst : Nat) (factor : α) : ReflectResult α :=
  let worstRow := simplex.getD index_worst []
  let evaluations := reflectTrial nd sums worstRow factor
  let objective_value := f evaluations
  if objective_value < vals.getD index_worst 0 then
    { simplex := simplex.set index_worst
        (tabulate worstRow.length fun j =>
          if j < nd then evaluations.getD j 0 else worstRow.getD j 0)
      vals := vals.set index_worst objective_value
      sums := tabulate sums.length fun j =>
        if j < nd then sums.getD j 0 + (evaluations.getD j 0 - worstRow.getD j 0)
        else sums.getD j 0
      value := objective_value }
  else
    { simplex := simplex, vals := vals, sums := sums, value := objective_value }

/-- Modelled from the spec: the member function `dimension_sums` is declared
and called by `minimize` but its definition is not among the provided source
files.  Per the spec it returns the cached "vector of per-coordinate sums
across all vertices"; its length follows the `num_dimensions_`-bounded use at
the call sites. -/
def dimension_sums (simplex : List (List α)) (nd : Nat) : List α :=
  tabulate nd fun j => (simplex.map fun row => row.getD j 0).sum

/-- The mutable run state of one `minimize` call. -/
structure NMState (α : Type) where
  simplex : List (List α)
  func_vals : List α
  simplex_sums : List α
  num_evals : Nat
  num_points : Nat
  num_dims : Nat
deriving DecidableEq

/-- Swap the entries at positions `i` and `j` (`std::swap` on elements /
`std::vector::swap` on rows). -/
def listSwap {β : Type} (l : List β) (i j : Nat) (d : β) : List β :=
  (l.set i (l.getD j d)).set j (l.getD i d)

/-- The state after the convergence branch: `func_vals_[0]` is swapped with
`func_vals_[index_low]` and row 0 of the simplex with row `index_low`. -/
def nmConvergeState (s : NMState α) (low : Nat) : NMState α :=
  { s with func_vals := listSwap s.func_vals 0 low 0
           simplex := listSwap s.simplex 0 low [] }

/-- The fractional spread
`2 |values[high] - values[low]| / (|values[high]| + |values[low]| + EPSILON_)`. -/
def nmTolerance (EPS : α) (s : NMState α) (r : Rank) : α :=
  2 * |s.func_vals.getD r.high 0 - s.func_vals.getD r.low 0| /
    (|s.func_vals.getD r.high 0| + |s.func_vals.getD r.low 0| + EPS)

/-- The point a non-best vertex is moved to during the shrink step:
`0.5 * (simplex_[i][j] + simplex_[index_low][j])` for `j < num_dimensions_`. -/
def shrinkPoint (nd : Nat) (lowRow row : List α) : List α :=
  tabulate nd fun j => 1 / 2 * (row.getD j 0 + lowRow.getD j 0)

/-- The shrink loop: every row `i < num_points_` other than `index_low` is
moved halfway toward row `index_low` and re-evaluated; the best row and its
value are untouched.  Returns the new simplex and value sequence. -/
def nmShrink (nd np : Nat) (f : List α → α) (simplex : List (List α))
    (vals : List α) (low : Nat) : List (List α) × List α :=
  let lowRow := simplex.getD low []
  (tabulate simplex.length fun i =>
     if i < np ∧ i ≠ low then
       (fun row => tabulate row.length fun j =>
          if j < nd then 1 / 2 * (row.getD j 0 + lowRow.getD j 0)
          else row.getD j 0) (simplex.getD i [])
     else simplex.getD i [],
   tabulate vals.length fun i =>
     if i < np ∧ i ≠ low then f (shrinkPoint nd lowRow (simplex.getD i [])) else vals.getD i 0)

/-- The body of one non-converged, within-budget iteration of `minimize`,
after the `num_evals_ += 2` budgeting: first the factor `-1.0` reflection,
then either the factor `2.0` expansion attempt
(`reflection <= func_vals_[index_low]`), or the factor `0.5` contraction
attempt (`reflection >= func_vals_[index_next_high]`) possibly followed by
the shrink step (`reflection >= func_next_high`), or plain acceptance of the
reflection with the `--num_evals_` correction.  Note that the source reads
`func_vals_[index_low]` and `func_vals_[index_next_high]` after the first
`reflect` call has possibly updated `func_vals_[index_high]`. -/
def nmIterate (f : List α → α) (s : NMState α) (r : Rank) : NMState α :=
  let nd := s.num_dims
  let r1 := reflect nd f s.simplex s.func_vals s.simplex_sums r.high (-1)
  if r1.value ≤ r1.vals.getD r.low 0 then
    let r2 := reflect nd f r1.simplex r1.vals r1.sums r.high 2
    { s with simplex := r2.simplex, func_vals := r2.vals, simplex_sums := r2.sums,
             num_evals := s.num_evals + 2 }
  else if r1.vals.getD r.nextHigh 0 ≤ r1.value then
    let func_next_high := r1.vals.getD r.nextHigh 0
    let r2 := reflect nd f r1.simplex r1.vals r1.sums r.high (1 / 2)
    if func_next_high ≤ r2.value then
      let shr := nmShrink nd s.num_points f r2.simplex r2.vals r.low
      { s with simplex := shr.1, func_vals := shr.2,
               simplex_sums := dimension_sums shr.1 nd,
               num_evals := s.num_evals + 2 + nd }
    else
      { s with simplex := r2.simplex, func_vals := r2.vals, simplex_sums := r2.sums,
               num_evals := s.num_evals + 2 }
  else
    { s with simplex := r1.simplex, func_vals := r1.vals, simplex_sums := r1.sums,
             num_evals := s.num_evals + 1 }

/-- Outcome of one trip around the `while (true)` loop. -/
inductive StepResult (α : Type) where
  | converged (minimizer : List α) (final : NMState α)
  | maxItersExceeded
  | next (s : NMState α)
deriving DecidableEq

/-- Whether a step outcome is the successful return. -/
def StepResult.isConverged {α : Type} : StepResult α → Bool
  | StepResult.converged _ _ => true
  | _ => false

/-- One trip around the `while (true)` loop: ranking scan, convergence test
(return of `simplex_[0]` after the swaps), then the
`num_evals_ >= MAX_ITERS_` budget check (the thrown `std::runtime_error`),
then the geometric-operator iteration body. -/
def nmStep (MAX_ITERS : Nat) (ftol EPS : α) (f : List α → α) (s : NMState α) :
    StepResult α :=
  let r := rank s.func_vals s.num_points
  if nmTolerance EPS s r < ftol then
    StepResult.converged ((nmConvergeState s r.low).simplex.getD 0 [])
      (nmConvergeState s r.low)
  else if MAX_ITERS ≤ s.num_evals then
    StepResult.maxItersExceeded
  else
    StepResult.next (nmIterate f s r)

/-- Checked reads `row[j]` for the listed coordinate indices; `none` as soon
as one index is out of bounds (the source's unchecked `operator[]`). -/
def readCoords? (row : List α) : List Nat → Option (List α)
  | [] => some []
  | j :: js =>
    match row.get? j with
    | none => none
    | some x =>
      match readCoords? row js with
      | none => none
      | some xs => some (x :: xs)

/-- Checked initial evaluation loop: for each listed row index `i`, copy
`simplex_[i][j]` for `j < nd` into the evaluation point and apply the
objective function; `none` as soon as an access is out of bounds. -/
def evalRows? (f : List α → α) (nd : Nat) (sim : List (List α)) :
    List Nat → Option (List α)
  | [] => some []
  | i :: is =>
    match sim.get? i with
    | none => none
    | some row =>
      match readCoords? row (List.range nd) with
      | none => none
      | some pt =>
        match evalRows? f nd sim is with
        | none => none
        | some vs => some (f pt :: vs)

/-- The initialization phase of the explicit-simplex `minimize` overload:
`num_dimensions_ = initial_simplex.size()`,
`num_points_ = initial_simplex[0].size()`, evaluation of the objective at
rows `0, ..., num_points_ - 1`, `num_evals_ = 0`, and
`simplex_sums = dimension_sums(simplex_)`.  Out-of-bounds accesses (there is
no input validation in the source) yield `none`. -/
def nmInit? (f : List α → α) (initial_simplex : List (List α)) :
    Option (NMState α) :=
  let nd := initial_simplex.length
  match initial_simplex.get? 0 with
  | none => none
  | some row0 =>
    let np := row0.length
    match evalRows? f nd initial_simplex (List.range np) with
    | none => none
    | some vals =>
      some { simplex := initial_simplex
             func_vals := vals
             simplex_sums := dimension_sums initial_simplex nd
             num_evals := 0
             num_points := np
             num_dims := nd }

/-- Outcome of a whole `minimize` run (fuel-indexed unfolding of
`while (true)`). -/
inductive RunOutcome (α : Type) where
  | ok (minimizer : List α) (final : NMState α)
  | maxIters
  | outOfFuel
deriving DecidableEq

/-- Iterate `nmStep` until convergence or the budget error. -/
def runNM (MAX_ITERS : Nat) (ftol EPS : α) (f : List α → α) :
    Nat → NMState α → RunOutcome α
  | 0, _ => RunOutcome.outOfFuel
  | fuel + 1, s =>
    match nmStep MAX_ITERS ftol EPS f s with
    | StepResult.converged m sf => RunOutcome.ok m sf
    | StepResult.maxItersExceeded => RunOutcome.maxIters
    | StepResult.next s' => runNM MAX_ITERS ftol EPS f fuel s'

/-- The explicit-simplex `minimize` overload: initialization followed by the
iteration loop. -/
def minimizeNM (fuel MAX_ITERS : Nat) (ftol EPS : α) (f : List α → α)
    (initial_simplex : List (List α)) : Option (RunOutcome α) :=
  (nmInit? f initial_simplex).map (runNM MAX_ITERS ftol EPS f fuel)

/-- The evaluation counter at a successful return, `none` otherwise. -/
def finalEvals? : Option (RunOutcome α) → Option Nat
  | some (RunOutcome.ok _ sf) => some sf.num_evals
  | _ => none

/-- Internal consistency of a run state: the value sequence has
`num_points_` entries, the simplex `num_points_` rows of `num_dimensions_`
coordinates each, the cached sums `num_dimensions_` entries, and there are
at least two points (the ranking initialization reads `func_vals_[1]`). -/
def NMwf (s : NMState α) : Prop :=
  s.func_vals.length = s.num_points ∧
  s.simplex.length = s.num_points ∧
  (∀ row ∈ s.simplex, row.length = s.num_dims) ∧
  s.simplex_sums.length = s.num_dims ∧
  2 ≤ s.num_points

lemma getD_eq_get? {β : Type} (l : List β) (i : Nat) (d : β) :
    l.getD i d = (l.get? i).getD d := rfl

lemma tabulate_length {β : Type} (n : Nat) (g : Nat → β) :
    (tabulate n g).length = n := by
  simp [tabulate]

lemma tabulate_get? {β : Type} (n : Nat) (g : Nat → β) (i : Nat) :
    (tabulate n g).get? i = if i < n then some (g i) else none := by
  by_cases h : i < n
  · simp [tabulate, List.get?_map, List.get?_range h, h]
  · rw [if_neg h, List.get?_eq_none.2]
    simp [tabulate, Nat.le_of_not_lt h]

lemma tabulate_getD {β : Type} (n : Nat) (g : Nat → β) (i : Nat) (d : β) :
    (tabulate n g).getD i d = if i < n then g i else d := by
  rw [getD_eq_get?, tabulate_get?]
  by_cases h : i < n <;> simp [h]

lemma getD_set_self {β : Type} (l : List β) (i : Nat) (a d : β)
    (h : i < l.length) : (l.set i a).getD i d = a := by
  rw [getD_eq_get?, List.get?_set_eq_of_lt a h]
  rfl

lemma getD_set_ne {β : Type} (l : List β) (i j : Nat) (a d : β) (h : i ≠ j) :
    (l.set i a).getD j d = l.getD j d := by
  rw [getD_eq_get?, List.get?_set_ne a l h, ← getD_eq_get?]

lemma getD_of_lt {β : Type} (l : List β) (i : Nat) (d : β) (h : i < l.length) :
    l.getD i d = l.get ⟨i, h⟩ := by
  rw [getD_eq_get?, List.get?_eq_get h]
  rfl

lemma tabulate_eq_self {β : Type} (l : List β) (d : β) :
    tabulate l.length (fun j => l.getD j d) = l := by
  apply List.ext_get?
  intro i
  rw [tabulate_get?]
  by_cases h : i < l.length
  · rw [if_pos h, getD_of_lt l i d h, List.get?_eq_get h]
  · rw [if_neg h, eq_comm, List.get?_eq_none]
    exact Nat.le_of_not_lt h

/-- Invariant of the ranking scan after the indices `0, ..., k-1` have been
processed: `low` is the latest index attaining the minimum so far, `high`
attains the maximum so far, and `nextHigh` attains the maximum over the
processed indices other than `high`. -/
def RankInv (vals : List α) (k : Nat) (r : Rank) : Prop :=
  r.low < k ∧ r.high < k ∧ r.nextHigh < k ∧ r.nextHigh ≠ r.high ∧
  (∀ j, j < k → vals.getD r.low 0 ≤ vals.getD j 0) ∧
  (∀ j, j < k → r.low < j → vals.getD r.low 0 < vals.getD j 0) ∧
  (∀ j, j < k → vals.getD j 0 ≤ vals.getD r.high 0) ∧
  (∀ j, j < k → j ≠ r.high → vals.getD j 0 ≤ vals.getD r.nextHigh 0)

lemma rankStepFn_proj (vals : List α) (r : Rank) (i : Nat) :
    rankStepFn vals r i =
      ⟨if vals.getD i 0 ≤ vals.getD r.low 0 then i else r.low,
       if vals.getD i 0 > vals.getD r.high 0 then i else r.high,
       if vals.getD i 0 > vals.getD r.high 0 then r.high
         else if vals.getD i 0 > vals.getD r.nextHigh 0 ∧ i ≠ r.high then i
         else r.nextHigh⟩ := by
  unfold rankStepFn
  dsimp only
  split_ifs <;> rfl

lemma rankLow_step (vals : List α) (k low : Nat)
    (hminle : ∀ j, j < k → vals.getD low 0 ≤ vals.getD j 0)
    (hlatest : ∀ j, j < k → low < j → vals.getD low 0 < vals.getD j 0) :
    (∀ j, j < k + 1 →
        vals.getD (if vals.getD k 0 ≤ vals.getD low 0 then k else low) 0 ≤
          vals.getD j 0) ∧
    (∀ j, j < k + 1 →
        (if vals.getD k 0 ≤ vals.getD low 0 then k else low) < j →
        vals.getD (if vals.getD k 0 ≤ vals.getD low 0 then k else low) 0 <
          vals.getD j 0) := by
  by_cases c0 : vals.getD k 0 ≤ vals.getD low 0
  · rw [if_pos c0]
    constructor
    · intro j hj
      rcases Nat.lt_succ_iff_lt_or_eq.1 hj with hj' | hj'
      · exact le_trans c0 (hminle j hj')
      · subst hj'; exact le_refl _
    · intro j hj hlj; omega
  · rw [if_neg c0]
    have hx : vals.getD low 0 < vals.getD k 0 := lt_of_not_le c0
    constructor
    · intro j hj
      rcases Nat.lt_succ_iff_lt_or_eq.1 hj with hj' | hj'
      · exact hminle j hj'
      · subst hj'; exact le_of_lt hx
    · intro j hj hlj
      rcases Nat.lt_succ_iff_lt_or_eq.1 hj with hj' | hj'
      · exact hlatest j hj' hlj
      · subst hj'; exact hx

lemma rankHigh_step (vals : List α) (k high nextHigh : Nat)
    (hh : high < k) (hn : nextHigh < k) (hne : nextHigh ≠ high)
    (hmax : ∀ j, j < k → vals.getD j 0 ≤ vals.getD high 0)
    (hsnd : ∀ j, j < k → j ≠ high → vals.getD j 0 ≤ vals.getD nextHigh 0) :
    (if vals.getD k 0 > vals.getD high 0 then k else high) < k + 1 ∧
    (if vals.getD k 0 > vals.getD high 0 then high
       else if vals.getD k 0 > vals.getD nextHigh 0 then k else nextHigh) < k + 1 ∧
    (if vals.getD k 0 > vals.getD high 0 then high
       else if vals.getD k 0 > vals.getD nextHigh 0 then k else nextHigh) ≠
      (if vals.getD k 0 > vals.getD high 0 then k else high) ∧
    (∀ j, j < k + 1 →
        vals.getD j 0 ≤
          vals.getD (if vals.getD k 0 > vals.getD high 0 then k else high) 0) ∧
    (∀ j, j < k + 1 →
        j ≠ (if vals.getD k 0 > vals.getD high 0 then k else high) →
        vals.getD j 0 ≤
          vals.getD (if vals.getD k 0 > vals.getD high 0 then high
            else if vals.getD k 0 > vals.getD nextHigh 0 then k else nextHigh) 0) := by
  by_cases c1 : vals.getD k 0 > vals.getD high 0
  · simp only [if_pos c1]
    refine ⟨by omega, by omega, by omega, ?_, ?_⟩
    · intro j hj
      rcases Nat.lt_succ_iff_lt_or_eq.1 hj with hj' | hj'
      · exact le_trans (hmax j hj') (le_of_lt c1)
      · subst hj'; exact le_refl _
    · intro j hj hjk
      rcases Nat.lt_succ_iff_lt_or_eq.1 hj with hj' | hj'
      · exact hmax j hj'
      · omega
  · simp only [if_neg c1]
    by_cases c2 : vals.getD k 0 > vals.getD nextHigh 0
    · simp only [if_pos c2]
      refine ⟨by omega, by omega, by omega, ?_, ?_⟩
      · intro j hj
        rcases Nat.lt_succ_iff_lt_or_eq.1 hj with hj' | hj'
        · exact hmax j hj'
        · subst hj'; exact le_of_not_lt c1
      · intro j hj hjh
        rcases Nat.lt_succ_iff_lt_or_eq.1 hj with hj' | hj'
        · exact le_trans (hsnd j hj' hjh) (le_of_lt c2)
        · subst hj'; exact le_refl _
    · simp only [if_neg c2]
      refine ⟨by omega, by omega, by omega, ?_, ?_⟩
      · intro j hj
        rcases Nat.lt_succ_iff_lt_or_eq.1 hj with hj' | hj'
        · exact hmax j hj'
        · subst hj'; exact le_of_not_lt c1
      · intro j hj hjh
        rcases Nat.lt_succ_iff_lt_or_eq.1 hj with hj' | hj'
        · exact hsnd j hj' hjh
        · subst hj'; exact le_of_not_lt c2

lemma rankStepFn_inv (vals : List α) (k : Nat) (r : Rank)
    (h : RankInv vals k r) : RankInv vals (k + 1) (rankStepFn vals r k) := by
  obtain ⟨hl, hh, hn, hne, hminle, hlatest, hmax, hsnd⟩ := h
  have hkh : k ≠ r.high := by omega
  rw [rankStepFn_proj]
  simp only [show (vals.getD k 0 > vals.getD r.nextHigh 0 ∧ k ≠ r.high) ↔
        (vals.getD k 0 > vals.getD r.nextHigh 0) from and_iff_left hkh]
  obtain ⟨halo, hala⟩ := rankLow_step vals k r.low hminle hlatest
  obtain ⟨hb1, hb2, hb3, hb4, hb5⟩ :=
    rankHigh_step vals k r.high r.nextHigh hh hn hne hmax hsnd
  exact ⟨by dsimp only; split <;> omega, hb1, hb2, hb3, halo, hala, hb4, hb5⟩

lemma rankInv_two (vals : List α) : RankInv vals 2 (rank vals 2) := by
  have hfold : rank vals 2 = rankStepFn vals (rankStepFn vals (rankInit vals) 0) 1 := by
    rw [rank, show List.range 2 = [0, 1] from rfl, List.foldl_cons,
        List.foldl_cons, List.foldl_nil]
  by_cases hab : vals.getD 0 0 > vals.getD 1 0
  · have hinit : rankInit vals = ⟨0, 0, 1⟩ := by unfold rankInit; rw [if_pos hab]
    have hs0 : rankStepFn vals ⟨0, 0, 1⟩ 0 = ⟨0, 0, 1⟩ := by
      rw [rankStepFn_proj]
      dsimp only
      rw [if_pos (le_refl (vals.getD 0 0)), if_neg (lt_irrefl (vals.getD 0 0)),
          if_neg (lt_irrefl (vals.getD 0 0)), if_neg (show ¬(vals.getD 0 0 > vals.getD 1 0 ∧ (0:Nat) ≠ 0) by simp)]
    have hs1 : rankStepFn vals ⟨0, 0, 1⟩ 1 = ⟨1, 0, 1⟩ := by
      rw [rankStepFn_proj]
      dsimp only
      rw [if_pos (le_of_lt hab), if_neg (lt_asymm hab), if_neg (lt_asymm hab),
          if_neg (show ¬(vals.getD 1 0 > vals.getD 1 0 ∧ (1:Nat) ≠ 0) by simp)]
    rw [hfold, hinit, hs0, hs1]
    unfold RankInv
    dsimp only
    refine ⟨by omega, by omega, by omega, by omega, ?_, ?_, ?_, ?_⟩
    · intro j hj; interval_cases j
      · exact le_of_lt hab
      · exact le_refl _
    · intro j hj h1j; omega
    · intro j hj; interval_cases j
      · exact le_refl _
      · exact le_of_lt hab
    · intro j hj hne1; interval_cases j
      · exact absurd rfl hne1
      · exact le_refl _
  · have hinit : rankInit vals = ⟨0, 1, 0⟩ := by unfold rankInit; rw [if_neg hab]
    have hle : vals.getD 0 0 ≤ vals.getD 1 0 := le_of_not_lt hab
    have hs0 : rankStepFn vals ⟨0, 1, 0⟩ 0 = ⟨0, 1, 0⟩ := by
      rw [rankStepFn_proj]
      dsimp only
      rw [if_pos (le_refl (vals.getD 0 0)), if_neg hab, if_neg hab,
          if_neg (show ¬(vals.getD 0 0 > vals.getD 0 0 ∧ (0:Nat) ≠ 1) by simp)]
    rw [hfold, hinit, hs0]
    by_cases hba : vals.getD 1 0 ≤ vals.getD 0 0
    · have hs1 : rankStepFn vals ⟨0, 1, 0⟩ 1 = ⟨1, 1, 0⟩ := by
        rw [rankStepFn_proj]
        dsimp only
        rw [if_pos hba, if_neg (lt_irrefl (vals.getD 1 0)),
            if_neg (lt_irrefl (vals.getD 1 0)),
            if_neg (show ¬(vals.getD 1 0 > vals.getD 0 0 ∧ (1:Nat) ≠ 1) by simp)]
      rw [hs1]
      unfold RankInv
      dsimp only
      refine ⟨by omega, by omega, by omega, by omega, ?_, ?_, ?_, ?_⟩
      · intro j hj; interval_cases j
        · exact hba
        · exact le_refl _
      · intro j hj h1j; omega
      · intro j hj; interval_cases j
        · exact hle
        · exact le_refl _
      · intro j hj hne1; interval_cases j
        · exact le_refl _
        · exact absurd rfl hne1
    · have hlt : vals.getD 0 0 < vals.getD 1 0 := lt_of_not_le hba
      have hs1 : rankStepFn vals ⟨0, 1, 0⟩ 1 = ⟨0, 1, 0⟩ := by
        rw [rankStepFn_proj]
        dsimp only
        rw [if_neg hba, if_neg (lt_irrefl (vals.getD 1 0)),
            if_neg (lt_irrefl (vals.getD 1 0)),
            if_neg (show ¬(vals.getD 1 0 > vals.getD 0 0 ∧ (1:Nat) ≠ 1) by simp)]
      rw [hs1]
      unfold RankInv
      dsimp only
      refine ⟨by omega, by omega, by omega, by omega, ?_, ?_, ?_, ?_⟩
      · intro j hj; interval_cases j
        · exact le_refl _
        · exact le_of_lt hlt
      · intro j hj h0j
        interval_cases j
        exact hlt
      · intro j hj; interval_cases j
        · exact le_of_lt hlt
        · exact le_refl _
      · intro j hj hne1; interval_cases j
        · exact le_refl _
        · exact absurd rfl hne1

lemma rank_succ (vals : List α) (n : Nat) :
    rank vals (n + 1) = rankStepFn vals (rank vals n) n := by
  rw [rank, rank, List.range_succ, List.foldl_append, List.foldl_cons,
      List.foldl_nil]

/-- The invariant of the ranking scan holds for the full pass whenever there
are at least two points. -/
lemma rank_inv (vals : List α) (np : Nat) (h2 : 2 ≤ np) :
    RankInv vals np (rank vals np) := by
  induction np, h2 using Nat.le_induction with
  | base => exact rankInv_two vals
  | succ n hn ih =>
    rw [rank_succ]
    exact rankStepFn_inv vals n (rank vals n) ih

/-- The first `reflect` call of an iteration (factor `-1.0`). -/
def nmR1 (f : List α → α) (s : NMState α) (r : Rank) : ReflectResult α :=
  reflect s.num_dims f s.simplex s.func_vals s.simplex_sums r.high (-1)

/-- The expansion attempt (factor `2.0`) following a successful reflection. -/
def nmR2exp (f : List α → α) (s : NMState α) (r : Rank) : ReflectResult α :=
  reflect s.num_dims f (nmR1 f s r).simplex (nmR1 f s r).vals (nmR1 f s r).sums
    r.high 2

/-- The contraction attempt (factor `0.5`). -/
def nmR2con (f : List α → α) (s : NMState α) (r : Rank) : ReflectResult α :=
  reflect s.num_dims f (nmR1 f s r).simplex (nmR1 f s r).vals (nmR1 f s r).sums
    r.high (1 / 2)

lemma reflect_of_lt (nd : Nat) (f : List α → α) (simplex : List (List α))
    (vals sums : List α) (iw : Nat) (factor : α)
    (h : f (reflectTrial nd sums (simplex.getD iw []) factor) < vals.getD iw 0) :
    reflect nd f simplex vals sums iw factor =
      { simplex := simplex.set iw
          (tabulate (simplex.getD iw []).length fun j =>
            if j < nd then (reflectTrial nd sums (simplex.getD iw []) factor).getD j 0
            else (simplex.getD iw []).getD j 0)
        vals := vals.set iw (f (reflectTrial nd sums (simplex.getD iw []) factor))
        sums := tabulate sums.length fun j =>
          if j < nd then
            sums.getD j 0 +
              ((reflectTrial nd sums (simplex.getD iw []) factor).getD j 0 -
                (simplex.getD iw []).getD j 0)
          else sums.getD j 0
        value := f (reflectTrial nd sums (simplex.getD iw []) factor) } := by
  simp only [reflect]
  rw [if_pos h]

lemma reflect_of_ge (nd : Nat) (f : List α → α) (simplex : List (List α))
    (vals sums : List α) (iw : Nat) (factor : α)
    (h : ¬ f (reflectTrial nd sums (simplex.getD iw []) factor) < vals.getD iw 0) :
    reflect nd f simplex vals sums iw factor =
      { simplex := simplex, vals := vals, sums := sums,
        value := f (reflectTrial nd sums (simplex.getD iw []) factor) } := by
  simp only [reflect]
  rw [if_neg h]

lemma reflect_value (nd : Nat) (f : List α → α) (simplex : List (List α))
    (vals sums : List α) (iw : Nat) (factor : α) :
    (reflect nd f simplex vals sums iw factor).value =
      f (reflectTrial nd sums (simplex.getD iw []) factor) := by
  simp only [reflect]
  split <;> rfl

lemma nmIterate_expand_eq (f : List α → α) (s : NMState α) (r : Rank)
    (h1 : (nmR1 f s r).value ≤ (nmR1 f s r).vals.getD r.low 0) :
    nmIterate f s r =
      { s with simplex := (nmR2exp f s r).simplex,
               func_vals := (nmR2exp f s r).vals,
               simplex_sums := (nmR2exp f s r).sums,
               num_evals := s.num_evals + 2 } := by
  have h1' := h1
  simp only [nmR1] at h1'
  simp only [nmIterate, nmR2exp, nmR1]
  rw [if_pos h1']

lemma nmIterate_contract_eq (f : List α → α) (s : NMState α) (r : Rank)
    (h1 : ¬ (nmR1 f s r).value ≤ (nmR1 f s r).vals.getD r.low 0)
    (h2 : (nmR1 f s r).vals.getD r.nextHigh 0 ≤ (nmR1 f s r).value)
    (h3 : ¬ (nmR1 f s r).vals.getD r.nextHigh 0 ≤ (nmR2con f s r).value) :
    nmIterate f s r =
      { s with simplex := (nmR2con f s r).simplex,
               func_vals := (nmR2con f s r).vals,
               simplex_sums := (nmR2con f s r).sums,
               num_evals := s.num_evals + 2 } := by
  have h1' := h1
  have h2' := h2
  have h3' := h3
  simp only [nmR1] at h1' h2'
  simp only [nmR2con, nmR1] at h3'
  simp only [nmIterate, nmR2con, nmR1]
  rw [if_neg h1', if_pos h2', if_neg h3']

lemma nmIterate_shrink_eq (f : List α → α) (s : NMState α) (r : Rank)
    (h1 : ¬ (nmR1 f s r).value ≤ (nmR1 f s r).vals.getD r.low 0)
    (h2 : (nmR1 f s r).vals.getD r.nextHigh 0 ≤ (nmR1 f s r).value)
    (h3 : (nmR1 f s r).vals.getD r.nextHigh 0 ≤ (nmR2con f s r).value) :
    nmIterate f s r =
      { s with simplex := (nmShrink s.num_dims s.num_points f
                 (nmR2con f s r).simplex (nmR2con f s r).vals r.low).1,
               func_vals := (nmShrink s.num_dims s.num_points f
                 (nmR2con f s r).simplex (nmR2con f s r).vals r.low).2,
               simplex_sums := dimension_sums (nmShrink s.num_dims s.num_points f
                 (nmR2con f s r).simplex (nmR2con f s r).vals r.low).1 s.num_dims,
               num_evals := s.num_evals + 2 + s.num_dims } := by
  have h1' := h1
  have h2' := h2
  have h3' := h3
  simp only [nmR1] at h1' h2'
  simp only [nmR2con, nmR1] at h3'
  simp only [nmIterate, nmR2con, nmR1]
  rw [if_neg h1', if_pos h2', if_pos h3']

lemma nmIterate_accept_eq (f : List α → α) (s : NMState α) (r : Rank)
    (h1 : ¬ (nmR1 f s r).value ≤ (nmR1 f s r).vals.getD r.low 0)
    (h2 : ¬ (nmR1 f s r).vals.getD r.nextHigh 0 ≤ (nmR1 f s r).value) :
    nmIterate f s r =
      { s with simplex := (nmR1 f s r).simplex,
               func_vals := (nmR1 f s r).vals,
               simplex_sums := (nmR1 f s r).sums,
               num_evals := s.num_evals + 1 } := by
  have h1' := h1
  have h2' := h2
  simp only [nmR1] at h1' h2'
  simp only [nmIterate, nmR1]
  rw [if_neg h1', if_neg h2']

lemma nmStep_converged_eq (MAX_ITERS : Nat) (ftol EPS : α) (f : List α → α)
    (s : NMState α)
    (h : nmTolerance EPS s (rank s.func_vals s.num_points) < ftol) :
    nmStep MAX_ITERS ftol EPS f s =
      StepResult.converged
        ((nmConvergeState s (rank s.func_vals s.num_points).low).simplex.getD 0 [])
        (nmConvergeState s (rank s.func_vals s.num_points).low) := by
  simp only [nmStep]
  rw [if_pos h]

lemma nmStep_maxIters_eq (MAX_ITERS : Nat) (ftol EPS : α) (f : List α → α)
    (s : NMState α)
    (h1 : ¬ nmTolerance EPS s (rank s.func_vals s.num_points) < ftol)
    (h2 : MAX_ITERS ≤ s.num_evals) :
    nmStep MAX_ITERS ftol EPS f s = StepResult.maxItersExceeded := by
  simp only [nmStep]
  rw [if_neg h1, if_pos h2]

lemma nmStep_next_eq (MAX_ITERS : Nat) (ftol EPS : α) (f : List α → α)
    (s : NMState α)
    (h1 : ¬ nmTolerance EPS s (rank s.func_vals s.num_points) < ftol)
    (h2 : ¬ MAX_ITERS ≤ s.num_evals) :
    nmStep MAX_ITERS ftol EPS f s =
      StepResult.next (nmIterate f s (rank s.func_vals s.num_points)) := by
  simp only [nmStep]
  rw [if_neg h1, if_neg h2]

/-- C10: the convergence test is evaluated before the evaluation-budget
check in every iteration: if the current ranking already satisfies the
function tolerance, the step returns the best vertex successfully even when
the evaluation counter has already reached or exceeded the maximum, and
`MaxIterationsExceeded` is raised exactly when the convergence test failed
and the counter is at or above the maximum. -/
theorem C10_check_order (MAX_ITERS : Nat) (ftol EPS : α) (f : List α → α)
    (s : NMState α) :
    (nmTolerance EPS s (rank s.func_vals s.num_points) < ftol →
       nmStep MAX_ITERS ftol EPS f s =
         StepResult.converged
           ((nmConvergeState s (rank s.func_vals s.num_points).low).simplex.getD 0 [])
           (nmConvergeState s (rank s.func_vals s.num_points).low)) ∧
    (nmStep MAX_ITERS ftol EPS f s = StepResult.maxItersExceeded ↔
       (¬ nmTolerance EPS s (rank s.func_vals s.num_points) < ftol ∧
         MAX_ITERS ≤ s.num_evals)) := by
  refine ⟨nmStep_converged_eq MAX_ITERS ftol EPS f s, ?_, ?_⟩
  · intro h
    by_cases hc : nmTolerance EPS s (rank s.func_vals s.num_points) < ftol
    · rw [nmStep_converged_eq MAX_ITERS ftol EPS f s hc] at h
      exact absurd h (by simp)
    · by_cases hm : MAX_ITERS ≤ s.num_evals
      · exact ⟨hc, hm⟩
      · rw [nmStep_next_eq MAX_ITERS ftol EPS f s hc hm] at h
        exact absurd h (by simp)
  · intro h
    exact nmStep_maxIters_eq MAX_ITERS ftol EPS f s h.1 h.2

/-- A simple concrete objective (the first coordinate) used by the concrete
instances below. -/
def fq : List ℚ → ℚ := fun v => v.getD 0 0

/-- A concrete state whose two objective values are equal (so the fractional
spread is 0) and whose evaluation counter already exceeds a budget of 1. -/
def s10 : NMState ℚ :=
  ⟨[[1, 2], [3, 4]], [5, 5], [4, 6], 50, 2, 2⟩

theorem C10_check_order_witness :
    (1:Nat) ≤ s10.num_evals ∧
    nmTolerance (1:ℚ) s10 (rank s10.func_vals s10.num_points) < 1 ∧
    nmStep 1 (1:ℚ) 1 fq s10 =
      StepResult.converged
        ((nmConvergeState s10 (rank s10.func_vals s10.num_points).low).simplex.getD 0 [])
        (nmConvergeState s10 (rank s10.func_vals s10.num_points).low) := by
  have htol : nmTolerance (1:ℚ) s10 (rank s10.func_vals s10.num_points) < 1 := by
    norm_num [nmTolerance, rank, rankInit, rankStepFn, s10,
      show List.range 2 = [0, 1] from rfl]
  exact ⟨by norm_num [s10], htol, (C10_check_order 1 1 1 fq s10).1 htol⟩

lemma listSwap_getD {β : Type} (l : List β) (i j t : Nat) (d : β)
    (hi : i < l.length) (hj : j < l.length) :
    (listSwap l i j d).getD t d =
      if t = j then l.getD i d else if t = i then l.getD j d else l.getD t d := by
  unfold listSwap
  by_cases htj : t = j
  · subst htj
    rw [if_pos rfl, getD_set_self]
    rw [List.length_set]
    exact hj
  · rw [if_neg htj, getD_set_ne _ _ _ _ _ (fun h => htj h.symm)]
    by_cases hti : t = i
    · subst hti
      rw [if_pos rfl, getD_set_self _ _ _ _ hi]
    · rw [if_neg hti, getD_set_ne _ _ _ _ _ (fun h => hti h.symm)]

lemma nmStep_isConverged_iff (MAX_ITERS : Nat) (ftol EPS : α) (f : List α → α)
    (s : NMState α) :
    (nmStep MAX_ITERS ftol EPS f s).isConverged = true ↔
      nmTolerance EPS s (rank s.func_vals s.num_points) < ftol := by
  constructor
  · intro h
    by_cases hc : nmTolerance EPS s (rank s.func_vals s.num_points) < ftol
    · exact hc
    · exfalso
      by_cases hm : MAX_ITERS ≤ s.num_evals
      · rw [nmStep_maxIters_eq MAX_ITERS ftol EPS f s hc hm] at h
        simp [StepResult.isConverged] at h
      · rw [nmStep_next_eq MAX_ITERS ftol EPS f s hc hm] at h
        simp [StepResult.isConverged] at h
  · intro hc
    rw [nmStep_converged_eq MAX_ITERS ftol EPS f s hc]
    rfl

/-- C2: the convergence test computes the fractional spread
`2 |values[high] - values[low]| / (|values[high]| + |values[low]| + ε)`, and
exactly when it is strictly below the function tolerance the step returns
successfully; the best vertex and its paired value are swapped into position
0, the returned vertex is that best vertex, and its value is
smallest-or-equal among the terminal value sequence. -/
theorem C2_convergence (MAX_ITERS : Nat) (ftol EPS : α) (f : List α → α)
    (s : NMState α) (hwf : NMwf s) :
    ((nmStep MAX_ITERS ftol EPS f s).isConverged = true ↔
       nmTolerance EPS s (rank s.func_vals s.num_points) < ftol) ∧
    (nmTolerance EPS s (rank s.func_vals s.num_points) < ftol →
       nmStep MAX_ITERS ftol EPS f s =
         StepResult.converged
           ((nmConvergeState s (rank s.func_vals s.num_points).low).simplex.getD 0 [])
           (nmConvergeState s (rank s.func_vals s.num_points).low) ∧
       (nmConvergeState s (rank s.func_vals s.num_points).low).simplex.getD 0 [] =
         s.simplex.getD (rank s.func_vals s.num_points).low [] ∧
       (nmConvergeState s (rank s.func_vals s.num_points).low).func_vals.getD 0 0 =
         s.func_vals.getD (rank s.func_vals s.num_points).low 0 ∧
       (∀ i, i < s.num_points →
          (nmConvergeState s (rank s.func_vals s.num_points).low).func_vals.getD 0 0 ≤
            (nmConvergeState s (rank s.func_vals s.num_points).low).func_vals.getD i 0)) := by
  obtain ⟨hvl, hsl, hrows, hsums, hnp⟩ := hwf
  have hinv := rank_inv s.func_vals s.num_points hnp
  obtain ⟨hlow, hhigh, hnh, hne, hminle, hlatest, hmax, hsnd⟩ := hinv
  have hlowv : (rank s.func_vals s.num_points).low < s.func_vals.length := by
    omega
  have hlows : (rank s.func_vals s.num_points).low < s.simplex.length := by
    omega
  have h0v : 0 < s.func_vals.length := by omega
  have h0s : 0 < s.simplex.length := by omega
  refine ⟨nmStep_isConverged_iff MAX_ITERS ftol EPS f s, ?_⟩
  intro hc
  refine ⟨nmStep_converged_eq MAX_ITERS ftol EPS f s hc, ?_, ?_, ?_⟩
  · show (listSwap s.simplex 0 (rank s.func_vals s.num_points).low []).getD 0 [] = _
    rw [listSwap_getD s.simplex 0 _ 0 [] h0s hlows]
    by_cases h0l : 0 = (rank s.func_vals s.num_points).low
    · rw [if_pos h0l, ← h0l]
    · rw [if_neg h0l, if_pos rfl]
  · show (listSwap s.func_vals 0 (rank s.func_vals s.num_points).low 0).getD 0 0 = _
    rw [listSwap_getD s.func_vals 0 _ 0 0 h0v hlowv]
    by_cases h0l : 0 = (rank s.func_vals s.num_points).low
    · rw [if_pos h0l, ← h0l]
    · rw [if_neg h0l, if_pos rfl]
  · intro i hi
    show (listSwap s.func_vals 0 (rank s.func_vals s.num_points).low 0).getD 0 0 ≤
      (listSwap s.func_vals 0 (rank s.func_vals s.num_points).low 0).getD i 0
    rw [listSwap_getD s.func_vals 0 _ 0 0 h0v hlowv,
        listSwap_getD s.func_vals 0 _ i 0 h0v hlowv]
    have hmin0 : ∀ t, t < s.num_points →
        s.func_vals.getD (rank s.func_vals s.num_points).low 0 ≤ s.func_vals.getD t 0 :=
      hminle
    by_cases h0l : 0 = (rank s.func_vals s.num_points).low
    · rw [if_pos h0l, ← h0l]
      by_cases hi0 : i = 0
      · rw [if_pos hi0]
      · rw [if_neg hi0, if_neg hi0, h0l]
        exact hmin0 i hi
    · rw [if_neg h0l, if_pos rfl]
      by_cases hil : i = (rank s.func_vals s.num_points).low
      · rw [if_pos hil]
        exact hmin0 0 (by omega)
      · rw [if_neg hil]
        by_cases hi0 : i = 0
        · rw [if_pos hi0]
        · rw [if_neg hi0]
          exact hmin0 i hi

/-- A concrete wf state with distinct values whose spread is below the
tolerance 1. -/
def s2c : NMState ℚ :=
  ⟨[[1, 2], [3, 4]], [7, 3], [4, 6], 5, 2, 2⟩

theorem C2_convergence_witness :
    NMwf s2c ∧
    (((nmStep 9 (1:ℚ) 1 fq s2c).isConverged = true ↔
        nmTolerance (1:ℚ) s2c (rank s2c.func_vals s2c.num_points) < 1) ∧
      (nmTolerance (1:ℚ) s2c (rank s2c.func_vals s2c.num_points) < 1 →
        nmStep 9 (1:ℚ) 1 fq s2c =
          StepResult.converged
            ((nmConvergeState s2c (rank s2c.func_vals s2c.num_points).low).simplex.getD 0 [])
            (nmConvergeState s2c (rank s2c.func_vals s2c.num_points).low) ∧
        (nmConvergeState s2c (rank s2c.func_vals s2c.num_points).low).simplex.getD 0 [] =
          s2c.simplex.getD (rank s2c.func_vals s2c.num_points).low [] ∧
        (nmConvergeState s2c (rank s2c.func_vals s2c.num_points).low).func_vals.getD 0 0 =
          s2c.func_vals.getD (rank s2c.func_vals s2c.num_points).low 0 ∧
        (∀ i, i < s2c.num_points →
           (nmConvergeState s2c (rank s2c.func_vals s2c.num_points).low).func_vals.getD 0 0 ≤
             (nmConvergeState s2c (rank s2c.func_vals s2c.num_points).low).func_vals.getD i 0))) := by
  have hwf : NMwf s2c := by
    refine ⟨rfl, rfl, ?_, rfl, by norm_num [s2c]⟩
    intro row hrow
    fin_cases hrow <;> rfl
  exact ⟨hwf, C2_convergence 9 1 1 fq s2c hwf⟩

/-- C7 counterexample: on the value sequence `[5, 5]` the two vertices share
the minimum value, yet the scan (whose low-update uses `<=`) ends with
`index_low = 1`, the latest tied index, not the earliest as the claim
states. -/
theorem C7_counterexample :
    ([5, 5] : List ℚ).getD 0 0 = ([5, 5] : List ℚ).getD 1 0 ∧
    (rank ([5, 5] : List ℚ) 2).low = 1 := by
  refine ⟨rfl, ?_⟩
  norm_num [rank, rankInit, rankStepFn, show List.range 2 = [0, 1] from rfl]

/-- C7 (amended): one ranking pass determines an index of the minimum value
(`low` — on ties the latest such index wins, not the earliest), an index of
the maximum value (`high` — a value merely equal to the current high does not
replace it), and an index `nextHigh`, different from `high`, attaining the
maximum over all indices other than `high`. -/
theorem C7_amended (vals : List α) (h2 : 2 ≤ vals.length) :
    (rank vals vals.length).low < vals.length ∧
    (rank vals vals.length).high < vals.length ∧
    (rank vals vals.length).nextHigh < vals.length ∧
    (rank vals vals.length).nextHigh ≠ (rank vals vals.length).high ∧
    (∀ j, j < vals.length →
       vals.getD (rank vals vals.length).low 0 ≤ vals.getD j 0) ∧
    (∀ j, j < vals.length → (rank vals vals.length).low < j →
       vals.getD (rank vals vals.length).low 0 < vals.getD j 0) ∧
    (∀ j, j < vals.length →
       vals.getD j 0 ≤ vals.getD (rank vals vals.length).high 0) ∧
    (∀ j, j < vals.length → j ≠ (rank vals vals.length).high →
       vals.getD j 0 ≤ vals.getD (rank vals vals.length).nextHigh 0) :=
  rank_inv vals vals.length h2

theorem C7_amended_witness :
    2 ≤ ([3, 1, 4, 1] : List ℚ).length ∧
    ((rank ([3, 1, 4, 1] : List ℚ) ([3, 1, 4, 1] : List ℚ).length).low <
       ([3, 1, 4, 1] : List ℚ).length ∧
     (rank ([3, 1, 4, 1] : List ℚ) ([3, 1, 4, 1] : List ℚ).length).high <
       ([3, 1, 4, 1] : List ℚ).length ∧
     (rank ([3, 1, 4, 1] : List ℚ) ([3, 1, 4, 1] : List ℚ).length).nextHigh <
       ([3, 1, 4, 1] : List ℚ).length ∧
     (rank ([3, 1, 4, 1] : List ℚ) ([3, 1, 4, 1] : List ℚ).length).nextHigh ≠
       (rank ([3, 1, 4, 1] : List ℚ) ([3, 1, 4, 1] : List ℚ).length).high ∧
     (∀ j, j < ([3, 1, 4, 1] : List ℚ).length →
        ([3, 1, 4, 1] : List ℚ).getD
            (rank ([3, 1, 4, 1] : List ℚ) ([3, 1, 4, 1] : List ℚ).length).low 0 ≤
          ([3, 1, 4, 1] : List ℚ).getD j 0) ∧
     (∀ j, j < ([3, 1, 4, 1] : List ℚ).length →
        (rank ([3, 1, 4, 1] : List ℚ) ([3, 1, 4, 1] : List ℚ).length).low < j →
        ([3, 1, 4, 1] : List ℚ).getD
            (rank ([3, 1, 4, 1] : List ℚ) ([3, 1, 4, 1] : List ℚ).length).low 0 <
          ([3, 1, 4, 1] : List ℚ).getD j 0) ∧
     (∀ j, j < ([3, 1, 4, 1] : List ℚ).length →
        ([3, 1, 4, 1] : List ℚ).getD j 0 ≤
          ([3, 1, 4, 1] : List ℚ).getD
            (rank ([3, 1, 4, 1] : List ℚ) ([3, 1, 4, 1] : List ℚ).length).high 0) ∧
     (∀ j, j < ([3, 1, 4, 1] : List ℚ).length →
        j ≠ (rank ([3, 1, 4, 1] : List ℚ) ([3, 1, 4, 1] : List ℚ).length).high →
        ([3, 1, 4, 1] : List ℚ).getD j 0 ≤
          ([3, 1, 4, 1] : List ℚ).getD
            (rank ([3, 1, 4, 1] : List ℚ) ([3, 1, 4, 1] : List ℚ).length).nextHigh 0)) :=
  ⟨by norm_num, C7_amended ([3, 1, 4, 1] : List ℚ) (by norm_num)⟩

lemma tabulate_getD_eq_self {β : Type} (l : List β) (n : Nat) (d : β)
    (h : l.length = n) : tabulate n (fun j => l.getD j d) = l := by
  subst h
  exact tabulate_eq_self l d

lemma tabulate_congr {β : Type} (n : Nat) (g g' : Nat → β)
    (h : ∀ j, j < n → g j = g' j) : tabulate n g = tabulate n g' := by
  unfold tabulate
  apply List.map_congr_left
  intro a ha
  exact h a (List.mem_range.mp ha)

lemma sum_map_eraseIdx (l : List (List α)) (g : List α → α) (i : Nat)
    (hi : i < l.length) :
    (l.map g).sum = g (l.getD i []) + ((l.eraseIdx i).map g).sum := by
  induction l generalizing i with
  | nil => simp at hi
  | cons head tail ih =>
    cases i with
    | zero => simp [List.eraseIdx]
    | succ n =>
      have hn : n < tail.length := by simpa using hi
      simp only [List.eraseIdx, List.map_cons, List.sum_cons, List.getD_cons_succ]
      rw [ih n hn]
      ring

/-- The centroid of the vertices other than the worst one: the coordinate-wise
mean of the simplex rows with row `iw` removed, with `nd` of them. -/
def centroidExcept (simplex : List (List α)) (iw nd j : Nat) : α :=
  (((simplex.eraseIdx iw).map fun row => row.getD j 0).sum) / (nd : α)

lemma reflectTrial_affine (nd : Nat) (hnd : 0 < nd) (simplex : List (List α))
    (sums : List α) (iw : Nat) (g : α)
    (hlen : simplex.length = nd + 1) (hiw : iw < simplex.length)
    (hsums : sums = dimension_sums simplex nd) :
    ∀ j, j < nd →
      (reflectTrial nd sums (simplex.getD iw []) g).getD j 0 =
        (1 - g) * centroidExcept simplex iw nd j +
          g * (simplex.getD iw []).getD j 0 := by
  intro j hj
  have hndz : (nd : α) ≠ 0 := by
    exact_mod_cast Nat.pos_iff_ne_zero.mp hnd
  have hcol : sums.getD j 0 =
      (simplex.getD iw []).getD j 0 + (nd : α) * centroidExcept simplex iw nd j := by
    rw [hsums]
    unfold dimension_sums
    rw [tabulate_getD, if_pos hj]
    rw [sum_map_eraseIdx simplex (fun row => row.getD j 0) iw hiw]
    unfold centroidExcept
    rw [mul_div_cancel₀ _ hndz]
  unfold reflectTrial
  rw [tabulate_getD, if_pos hj, hcol]
  field_simp
  ring

/-- C4: for every worst-vertex index and factor, the reflect-with-factor
primitive computes the trial vertex by the exact per-coordinate formula
`dimension_sum * (1-f)/N - worst * ((1-f)/N - f)`; against a simplex of
`N + 1` rows with consistent cached sums this is the affine combination
`(1-f) * centroid + f * worst` of the centroid of the remaining vertices and
the worst vertex, so factor `-1` gives the full reflection of the worst
vertex through that centroid, factor `2` the expansion twice as far from the
centroid in the worst vertex's direction, and factor `0.5` the point halfway
between the worst vertex and the centroid. -/
theorem C4_reflect_formula (nd : Nat) (hnd : 0 < nd) (simplex : List (List α))
    (sums : List α) (iw : Nat) (factor : α)
    (hlen : simplex.length = nd + 1) (hiw : iw < simplex.length)
    (hsums : sums = dimension_sums simplex nd) :
    (∀ j, j < nd →
       (reflectTrial nd sums (simplex.getD iw []) factor).getD j 0 =
         sums.getD j 0 * ((1 - factor) / (nd : α)) -
           (simplex.getD iw []).getD j 0 * ((1 - factor) / (nd : α) - factor)) ∧
    (∀ j, j < nd →
       (reflectTrial nd sums (simplex.getD iw []) factor).getD j 0 =
         (1 - factor) * centroidExcept simplex iw nd j +
           factor * (simplex.getD iw []).getD j 0) ∧
    (∀ j, j < nd →
       (reflectTrial nd sums (simplex.getD iw []) (-1)).getD j 0 =
         2 * centroidExcept simplex iw nd j - (simplex.getD iw []).getD j 0) ∧
    (∀ j, j < nd →
       (reflectTrial nd sums (simplex.getD iw []) 2).getD j 0 =
         centroidExcept simplex iw nd j +
           2 * ((simplex.getD iw []).getD j 0 - centroidExcept simplex iw nd j)) ∧
    (∀ j, j < nd →
       (reflectTrial nd sums (simplex.getD iw []) (1 / 2)).getD j 0 =
         ((simplex.getD iw []).getD j 0 + centroidExcept simplex iw nd j) / 2) := by
  refine ⟨?_, ?_, ?_, ?_, ?_⟩
  · intro j hj
    unfold reflectTrial
    rw [tabulate_getD, if_pos hj]
  · exact reflectTrial_affine nd hnd simplex sums iw factor hlen hiw hsums
  · intro j hj
    rw [reflectTrial_affine nd hnd simplex sums iw (-1) hlen hiw hsums j hj]
    ring
  · intro j hj
    rw [reflectTrial_affine nd hnd simplex sums iw 2 hlen hiw hsums j hj]
    ring
  · intro j hj
    rw [reflectTrial_affine nd hnd simplex sums iw (1 / 2) hlen hiw hsums j hj]
    ring

/-- The concrete 2-D triangle of the spec's regression test. -/
def tri2 : List (List ℚ) := [[0, 0], [2, 0], [0, 2]]

theorem C4_reflect_formula_witness :
    (0 < 2 ∧ tri2.length = 2 + 1 ∧ 2 < tri2.length ∧
      ([2, 2] : List ℚ) = dimension_sums tri2 2) ∧
    ((∀ j, j < 2 →
        (reflectTrial 2 ([2, 2] : List ℚ) (tri2.getD 2 []) (-1)).getD j 0 =
          ([2, 2] : List ℚ).getD j 0 * ((1 - (-1)) / (2 : ℚ)) -
            (tri2.getD 2 []).getD j 0 * ((1 - (-1)) / (2 : ℚ) - (-1))) ∧
     (∀ j, j < 2 →
        (reflectTrial 2 ([2, 2] : List ℚ) (tri2.getD 2 []) (-1)).getD j 0 =
          (1 - (-1)) * centroidExcept tri2 2 2 j +
            (-1) * (tri2.getD 2 []).getD j 0) ∧
     (∀ j, j < 2 →
        (reflectTrial 2 ([2, 2] : List ℚ) (tri2.getD 2 []) (-1)).getD j 0 =
          2 * centroidExcept tri2 2 2 j - (tri2.getD 2 []).getD j 0) ∧
     (∀ j, j < 2 →
        (reflectTrial 2 ([2, 2] : List ℚ) (tri2.getD 2 []) 2).getD j 0 =
          centroidExcept tri2 2 2 j +
            2 * ((tri2.getD 2 []).getD j 0 - centroidExcept tri2 2 2 j)) ∧
     (∀ j, j < 2 →
        (reflectTrial 2 ([2, 2] : List ℚ) (tri2.getD 2 []) (1 / 2)).getD j 0 =
          ((tri2.getD 2 []).getD j 0 + centroidExcept tri2 2 2 j) / 2)) := by
  have hsums : ([2, 2] : List ℚ) = dimension_sums tri2 2 := by
    norm_num [dimension_sums, tabulate, tri2, show List.range 2 = [0, 1] from rfl]
  exact ⟨⟨by norm_num, by norm_num [tri2], by norm_num [tri2], hsums⟩,
    C4_reflect_formula 2 (by norm_num) tri2 ([2, 2] : List ℚ) 2 (-1)
      (by norm_num [tri2]) (by norm_num [tri2]) hsums⟩

/-- C5: after every `reflect` call the trial value is returned to the caller;
when it strictly improves on the current worst value the stored worst vertex,
its paired value and the cached dimension sums are all updated (the sums
incrementally by new minus old per coordinate) and nothing else changes;
when it does not improve, the simplex, the values and the sums are left
completely unchanged. -/
theorem C5_reflect_frame (nd : Nat) (f : List α → α) (simplex : List (List α))
    (vals sums : List α) (iw : Nat) (factor : α)
    (hiw : iw < vals.length) (hiws : iw < simplex.length)
    (hrow : (simplex.getD iw []).length = nd) (hsums : sums.length = nd) :
    (reflect nd f simplex vals sums iw factor).value =
      f (reflectTrial nd sums (simplex.getD iw []) factor) ∧
    (f (reflectTrial nd sums (simplex.getD iw []) factor) < vals.getD iw 0 →
       (reflect nd f simplex vals sums iw factor).vals.getD iw 0 =
         f (reflectTrial nd sums (simplex.getD iw []) factor) ∧
       (∀ i, i ≠ iw →
          (reflect nd f simplex vals sums iw factor).vals.getD i 0 =
            vals.getD i 0) ∧
       (reflect nd f simplex vals sums iw factor).simplex.getD iw [] =
         reflectTrial nd sums (simplex.getD iw []) factor ∧
       (∀ i, i ≠ iw →
          (reflect nd f simplex vals sums iw factor).simplex.getD i [] =
            simplex.getD i []) ∧
       (∀ j, j < nd →
          (reflect nd f simplex vals sums iw factor).sums.getD j 0 =
            sums.getD j 0 +
              ((reflectTrial nd sums (simplex.getD iw []) factor).getD j 0 -
                (simplex.getD iw []).getD j 0))) ∧
    (¬ f (reflectTrial nd sums (simplex.getD iw []) factor) < vals.getD iw 0 →
       (reflect nd f simplex vals sums iw factor).simplex = simplex ∧
       (reflect nd f simplex vals sums iw factor).vals = vals ∧
       (reflect nd f simplex vals sums iw factor).sums = sums) := by
  refine ⟨reflect_value nd f simplex vals sums iw factor, ?_, ?_⟩
  · intro himp
    rw [reflect_of_lt nd f simplex vals sums iw factor himp]
    dsimp only
    refine ⟨?_, ?_, ?_, ?_, ?_⟩
    · rw [getD_set_self _ _ _ _ hiw]
    · intro i hi
      rw [getD_set_ne _ _ _ _ _ (fun h => hi h.symm)]
    · rw [getD_set_self _ _ _ _ hiws, hrow]
      have hlen : (reflectTrial nd sums (simplex.getD iw []) factor).length = nd := by
        unfold reflectTrial
        exact tabulate_length _ _
      calc tabulate nd (fun j =>
              if j < nd then (reflectTrial nd sums (simplex.getD iw []) factor).getD j 0
              else (simplex.getD iw []).getD j 0)
          = tabulate nd (fun j =>
              (reflectTrial nd sums (simplex.getD iw []) factor).getD j 0) := by
            apply tabulate_congr
            intro j hj
            rw [if_pos hj]
        _ = reflectTrial nd sums (simplex.getD iw []) factor :=
            tabulate_getD_eq_self _ nd 0 hlen
    · intro i hi
      rw [getD_set_ne _ _ _ _ _ (fun h => hi h.symm)]
    · intro j hj
      rw [tabulate_getD, if_pos (by omega : j < sums.length), if_pos hj]
  · intro himp
    rw [reflect_of_ge nd f simplex vals sums iw factor himp]
    exact ⟨rfl, rfl, rfl⟩

theorem C5_reflect_frame_witness :
    ((2:Nat) < 3 ∧ (2:Nat) < 3 ∧ (tri2.getD 2 []).length = 2 ∧
      ([2, 2] : List ℚ).length = 2) ∧
    ((reflect 2 fq tri2 ([9, 9, 9] : List ℚ) ([2, 2] : List ℚ) 2 (-1)).value =
       fq (reflectTrial 2 ([2, 2] : List ℚ) (tri2.getD 2 []) (-1)) ∧
     (fq (reflectTrial 2 ([2, 2] : List ℚ) (tri2.getD 2 []) (-1)) <
        ([9, 9, 9] : List ℚ).getD 2 0 →
        (reflect 2 fq tri2 ([9, 9, 9] : List ℚ) ([2, 2] : List ℚ) 2 (-1)).vals.getD 2 0 =
          fq (reflectTrial 2 ([2, 2] : List ℚ) (tri2.getD 2 []) (-1)) ∧
        (∀ i, i ≠ 2 →
           (reflect 2 fq tri2 ([9, 9, 9] : List ℚ) ([2, 2] : List ℚ) 2 (-1)).vals.getD i 0 =
             ([9, 9, 9] : List ℚ).getD i 0) ∧
        (reflect 2 fq tri2 ([9, 9, 9] : List ℚ) ([2, 2] : List ℚ) 2 (-1)).simplex.getD 2 [] =
          reflectTrial 2 ([2, 2] : List ℚ) (tri2.getD 2 []) (-1) ∧
        (∀ i, i ≠ 2 →
           (reflect 2 fq tri2 ([9, 9, 9] : List ℚ) ([2, 2] : List ℚ) 2 (-1)).simplex.getD i [] =
             tri2.getD i []) ∧
        (∀ j, j < 2 →
           (reflect 2 fq tri2 ([9, 9, 9] : List ℚ) ([2, 2] : List ℚ) 2 (-1)).sums.getD j 0 =
             ([2, 2] : List ℚ).getD j 0 +
               ((reflectTrial 2 ([2, 2] : List ℚ) (tri2.getD 2 []) (-1)).getD j 0 -
                 (tri2.getD 2 []).getD j 0))) ∧
     (¬ fq (reflectTrial 2 ([2, 2] : List ℚ) (tri2.getD 2 []) (-1)) <
        ([9, 9, 9] : List ℚ).getD 2 0 →
        (reflect 2 fq tri2 ([9, 9, 9] : List ℚ) ([2, 2] : List ℚ) 2 (-1)).simplex = tri2 ∧
        (reflect 2 fq tri2 ([9, 9, 9] : List ℚ) ([2, 2] : List ℚ) 2 (-1)).vals =
          ([9, 9, 9] : List ℚ) ∧
        (reflect 2 fq tri2 ([9, 9, 9] : List ℚ) ([2, 2] : List ℚ) 2 (-1)).sums =
          ([2, 2] : List ℚ))) :=
  ⟨⟨by norm_num, by norm_num, by norm_num [tri2], by norm_num⟩,
    C5_reflect_frame 2 fq tri2 ([9, 9, 9] : List ℚ) ([2, 2] : List ℚ) 2 (-1)
      (by norm_num) (by norm_num [tri2]) (by norm_num [tri2]) (by norm_num)⟩

/-- C8 (code-bug evidence): `minimize` performs no input validation.  On the
empty simplex the very first access `initial_simplex[0]` is already out of
bounds (`none`), and on an inconsistent simplex (rows of differing length)
the initial evaluation loop runs into an out-of-bounds read; no
`InvalidInputError` exists anywhere in the source. -/
theorem C8_no_validation :
    nmInit? fq ([] : List (List ℚ)) = none ∧
    nmInit? fq ([[1, 2], [3]] : List (List ℚ)) = none :=
  ⟨rfl, rfl⟩

/-- C9 (code-bug evidence): on the well-formed 1-dimensional simplex
`[[0], [1]]` (N+1 = 2 rows of length N = 1) the source sets
`num_dimensions_ = 2` (the row count) and `num_points_ = 1` (the row
length) — swapped — so the initial evaluation loop reads `simplex_[0][1]`,
which is out of bounds. -/
theorem C9_out_of_bounds :
    nmInit? fq ([[0], [1]] : List (List ℚ)) = none := rfl

lemma get?_eq_some_getD {β : Type} (l : List β) (i : Nat) (d : β)
    (h : i < l.length) : l.get? i = some (l.getD i d) := by
  rw [List.get?_eq_get h, getD_of_lt l i d h]

lemma readCoords?_all (row : List α) (js : List Nat)
    (h : ∀ j ∈ js, j < row.length) :
    readCoords? row js = some (js.map fun j => row.getD j 0) := by
  induction js with
  | nil => rfl
  | cons j js ih =>
    have hj : j < row.length := h j (by simp)
    have hrest := ih fun t ht => h t (by simp [ht])
    unfold readCoords?
    rw [get?_eq_some_getD row j 0 hj]
    dsimp only
    rw [hrest]
    rfl

lemma evalRows?_all (f : List α → α) (nd : Nat) (sim : List (List α))
    (idxs : List Nat)
    (h : ∀ i ∈ idxs, i < sim.length ∧ nd ≤ (sim.getD i []).length) :
    evalRows? f nd sim idxs =
      some (idxs.map fun i =>
        f ((List.range nd).map fun j => (sim.getD i []).getD j 0)) := by
  induction idxs with
  | nil => rfl
  | cons i is ih =>
    obtain ⟨hi, hrow⟩ := h i (by simp)
    have hrest := ih fun t ht => h t (by simp [ht])
    unfold evalRows?
    rw [get?_eq_some_getD sim i [] hi]
    dsimp only
    rw [readCoords?_all (sim.getD i []) (List.range nd)
      (fun j hj => lt_of_lt_of_le (List.mem_range.mp hj) hrow)]
    dsimp only
    rw [hrest]
    rfl

lemma map_getD_range {β γ : Type} (l : List β) (g : β → γ) (d : β) :
    ((List.range l.length).map fun i => g (l.getD i d)) = l.map g := by
  apply List.ext_get?
  intro i
  by_cases hi : i < l.length
  · rw [List.get?_map, List.get?_map, List.get?_range hi,
        List.get?_eq_get hi]
    dsimp only [Option.map_some']
    rw [getD_of_lt l i d hi]
  · have h1 : ((List.range l.length).map fun i => g (l.getD i d)).length ≤ i := by
      simpa using le_of_not_lt hi
    have h2 : (l.map g).length ≤ i := by simpa using le_of_not_lt hi
    rw [List.get?_eq_none.2 h1, List.get?_eq_none.2 h2]

/-- Initialization on a SQUARE simplex (the only shape on which every access
of the source is in bounds, since the source swaps the dimension and point
counts): every row is evaluated in index order, and the evaluation counter is
reset to zero afterwards. -/
lemma nmInit?_square (f : List α → α) (sim : List (List α)) (h0 : sim ≠ [])
    (hsq : ∀ row ∈ sim, row.length = sim.length) :
    nmInit? f sim = some
      { simplex := sim, func_vals := sim.map f,
        simplex_sums := dimension_sums sim sim.length, num_evals := 0,
        num_points := sim.length, num_dims := sim.length } := by
  have h0l : 0 < sim.length := List.length_pos.mpr h0
  have hrow0 : (sim.getD 0 []).length = sim.length := by
    apply hsq
    rw [getD_of_lt sim 0 [] h0l]
    exact List.get_mem _ _ _
  have hrows : ∀ i, i < sim.length → (sim.getD i []).length = sim.length := by
    intro i hi
    apply hsq
    rw [getD_of_lt sim i [] hi]
    exact List.get_mem _ _ _
  unfold nmInit?
  rw [get?_eq_some_getD sim 0 [] h0l]
  dsimp only
  rw [hrow0]
  rw [evalRows?_all f sim.length sim (List.range sim.length)
    (fun i hi => ⟨List.mem_range.mp hi, le_of_eq (hrows i (List.mem_range.mp hi)).symm⟩)]
  dsimp only
  congr 1
  have hvals : ∀ i, i < sim.length →
      ((List.range sim.length).map fun j => (sim.getD i []).getD j 0) = sim.getD i [] := by
    intro i hi
    have := tabulate_getD_eq_self (sim.getD i []) sim.length 0 (hrows i hi)
    simpa [tabulate] using this
  have : ((List.range sim.length).map fun i =>
      f ((List.range sim.length).map fun j => (sim.getD i []).getD j 0)) =
      ((List.range sim.length).map fun i => f (sim.getD i [])) := by
    apply List.map_congr_left
    intro i hi
    rw [hvals i (List.mem_range.mp hi)]
  rw [NMState.mk.injEq]
  refine ⟨rfl, ?_, rfl, rfl, rfl, rfl⟩
  rw [this, map_getD_range sim f []]

lemma reflect_lengths (nd : Nat) (f : List α → α) (simplex : List (List α))
    (vals sums : List α) (iw : Nat) (factor : α) :
    (reflect nd f simplex vals sums iw factor).simplex.length = simplex.length ∧
    (reflect nd f simplex vals sums iw factor).vals.length = vals.length ∧
    (reflect nd f simplex vals sums iw factor).sums.length = sums.length ∧
    (∀ i, i < simplex.length →
       ((reflect nd f simplex vals sums iw factor).simplex.getD i []).length =
         (simplex.getD i []).length) := by
  by_cases hc : f (reflectTrial nd sums (simplex.getD iw []) factor) <
      vals.getD iw 0
  · rw [reflect_of_lt nd f simplex vals sums iw factor hc]
    dsimp only
    refine ⟨List.length_set _ _ _, List.length_set _ _ _, tabulate_length _ _, ?_⟩
    intro i hi
    by_cases hii : i = iw
    · subst hii
      rw [getD_set_self _ _ _ _ hi, tabulate_length]
    · rw [getD_set_ne _ _ _ _ _ (fun h => hii h.symm)]
  · rw [reflect_of_ge nd f simplex vals sums iw factor hc]
    exact ⟨rfl, rfl, rfl, fun i hi => rfl⟩

lemma nmShrink_spec (nd np : Nat) (f : List α → α) (simplex : List (List α))
    (vals : List α) (low : Nat)
    (hslen : simplex.length = np) (hvlen : vals.length = np)
    (hrows : ∀ i, i < np → (simplex.getD i []).length = nd) (hlow : low < np) :
    (nmShrink nd np f simplex vals low).1.length = np ∧
    (nmShrink nd np f simplex vals low).2.length = np ∧
    (∀ i, i < np → i ≠ low →
       (nmShrink nd np f simplex vals low).1.getD i [] =
         shrinkPoint nd (simplex.getD low []) (simplex.getD i [])) ∧
    ((nmShrink nd np f simplex vals low).1.getD low [] = simplex.getD low []) ∧
    (∀ i, i < np → i ≠ low →
       (nmShrink nd np f simplex vals low).2.getD i 0 =
         f (shrinkPoint nd (simplex.getD low []) (simplex.getD i []))) ∧
    ((nmShrink nd np f simplex vals low).2.getD low 0 = vals.getD low 0) := by
  unfold nmShrink
  dsimp only
  refine ⟨by rw [tabulate_length, hslen], by rw [tabulate_length, hvlen],
    ?_, ?_, ?_, ?_⟩
  · intro i hi hne
    rw [tabulate_getD, if_pos (by omega : i < simplex.length),
        if_pos (⟨hi, hne⟩ : i < np ∧ i ≠ low)]
    rw [hrows i hi]
    unfold shrinkPoint
    apply tabulate_congr
    intro j hj
    rw [if_pos hj]
  · rw [tabulate_getD, if_pos (by omega : low < simplex.length),
        if_neg (by simp : ¬(low < np ∧ low ≠ low))]
  · intro i hi hne
    rw [tabulate_getD, if_pos (by omega : i < vals.length),
        if_pos (⟨hi, hne⟩ : i < np ∧ i ≠ low)]
  · rw [tabulate_getD, if_pos (by omega : low < vals.length),
        if_neg (by simp : ¬(low < np ∧ low ≠ low))]

/-- C6 counterexample: on the 2-vertex simplex `[[0,0],[4,0]]` (N+1 = 2)
initialization computes the value sequence but leaves the evaluation counter
at 0 — `num_evals_ = 0;` is executed after the initial evaluation loop — so
the claimed charge of exactly N+1 = 2 evaluations before the first iteration
is false. -/
theorem C6_counterexample :
    nmInit? fq ([[0, 0], [4, 0]] : List (List ℚ)) =
      some ⟨[[0, 0], [4, 0]], [0, 4], [4, 0], 0, 2, 2⟩ ∧
    (0 : Nat) ≠ 2 := by
  refine ⟨?_, by omega⟩
  norm_num [nmInit?, evalRows?, readCoords?, dimension_sums, tabulate, fq,
    show List.range 2 = [0, 1] from rfl]

/-- C6 (amended): initialization computes the objective value of rows
`0, ..., num_points_ - 1` in index order — on a square simplex, every row —
into the paired value sequence, and then sets the evaluation counter to 0, so
initialization charges nothing; a shrink step re-evaluates every vertex
except the best among the first `num_points_` and charges `num_dims_` (the
row count of the input simplex) further evaluations. -/
theorem C6_init_and_shrink (f : List α → α) (sim : List (List α))
    (h0 : sim ≠ []) (hsq : ∀ row ∈ sim, row.length = sim.length)
    (s : NMState α) (hwf : NMwf s)
    (hb1 : ¬ (nmR1 f s (rank s.func_vals s.num_points)).value ≤
        (nmR1 f s (rank s.func_vals s.num_points)).vals.getD
          (rank s.func_vals s.num_points).low 0)
    (hb2 : (nmR1 f s (rank s.func_vals s.num_points)).vals.getD
        (rank s.func_vals s.num_points).nextHigh 0 ≤
        (nmR1 f s (rank s.func_vals s.num_points)).value)
    (hb3 : (nmR1 f s (rank s.func_vals s.num_points)).vals.getD
        (rank s.func_vals s.num_points).nextHigh 0 ≤
        (nmR2con f s (rank s.func_vals s.num_points)).value) :
    nmInit? f sim = some
      { simplex := sim, func_vals := sim.map f,
        simplex_sums := dimension_sums sim sim.length, num_evals := 0,
        num_points := sim.length, num_dims := sim.length } ∧
    (nmIterate f s (rank s.func_vals s.num_points)).num_evals =
      s.num_evals + 2 + s.num_dims ∧
    (∀ i, i < s.num_points → i ≠ (rank s.func_vals s.num_points).low →
       (nmIterate f s (rank s.func_vals s.num_points)).func_vals.getD i 0 =
         f (shrinkPoint s.num_dims
             ((nmR2con f s (rank s.func_vals s.num_points)).simplex.getD
               (rank s.func_vals s.num_points).low [])
             ((nmR2con f s (rank s.func_vals s.num_points)).simplex.getD i []))) ∧
    (nmIterate f s (rank s.func_vals s.num_points)).func_vals.getD
        (rank s.func_vals s.num_points).low 0 =
      (nmR2con f s (rank s.func_vals s.num_points)).vals.getD
        (rank s.func_vals s.num_points).low 0 := by
  obtain ⟨hvl, hsl, hrows, hsums, hnp⟩ := hwf
  have hinv := rank_inv s.func_vals s.num_points hnp
  have hlow : (rank s.func_vals s.num_points).low < s.num_points := hinv.1
  have hrows' : ∀ i, i < s.num_points →
      (s.simplex.getD i []).length = s.num_dims := by
    intro i hi
    apply hrows
    rw [getD_of_lt s.simplex i [] (by omega)]
    exact List.get_mem _ _ _
  have hl1 := reflect_lengths s.num_dims f s.simplex s.func_vals s.simplex_sums
    (rank s.func_vals s.num_points).high (-1)
  have hl2 := reflect_lengths s.num_dims f
    (nmR1 f s (rank s.func_vals s.num_points)).simplex
    (nmR1 f s (rank s.func_vals s.num_points)).vals
    (nmR1 f s (rank s.func_vals s.num_points)).sums
    (rank s.func_vals s.num_points).high (1 / 2)
  have hr2slen : (nmR2con f s (rank s.func_vals s.num_points)).simplex.length =
      s.num_points := by
    rw [nmR2con, hl2.1]
    rw [nmR1, hl1.1, hsl]
  have hr2vlen : (nmR2con f s (rank s.func_vals s.num_points)).vals.length =
      s.num_points := by
    rw [nmR2con, hl2.2.1]
    rw [nmR1, hl1.2.1, hvl]
  have hr2rows : ∀ i, i < s.num_points →
      ((nmR2con f s (rank s.func_vals s.num_points)).simplex.getD i []).length =
        s.num_dims := by
    intro i hi
    rw [nmR2con, hl2.2.2.2 i (by rw [nmR1, hl1.1, hsl]; omega)]
    rw [nmR1, hl1.2.2.2 i (by rw [hsl]; omega)]
    exact hrows' i hi
  have hshr := nmShrink_spec s.num_dims s.num_points f
    (nmR2con f s (rank s.func_vals s.num_points)).simplex
    (nmR2con f s (rank s.func_vals s.num_points)).vals
    (rank s.func_vals s.num_points).low hr2slen hr2vlen hr2rows hlow
  rw [nmIterate_shrink_eq f s (rank s.func_vals s.num_points) hb1 hb2 hb3]
  dsimp only
  refine ⟨nmInit?_square f sim h0 hsq, rfl, ?_, ?_⟩
  · intro i hi hne
    exact hshr.2.2.2.2.1 i hi hne
  · exact hshr.2.2.2.2.2

/-- A crafted objective driving one iteration of the concrete state `s6` into
the contraction-then-shrink branch: the reflected point `[-4,0]` is bad (20),
the contracted point `[2,0]` improves the worst (5) but not past the saved
second-worst (0), so the simplex shrinks toward the best vertex. -/
def f6 : List ℚ → ℚ := fun v =>
  if v = [-4, 0] then 20
  else if v = [2, 0] then 5
  else if v = [4, 0] then 10
  else if v = [1, 0] then 3
  else 0

/-- A concrete square state: two vertices `[0,0]` (value 0) and `[4,0]`
(value 10), consistent sums `[4,0]`, counter 7. -/
def s6 : NMState ℚ := ⟨[[0, 0], [4, 0]], [0, 10], [4, 0], 7, 2, 2⟩

theorem C6_init_and_shrink_witness :
    (([[0, 0], [4, 0]] : List (List ℚ)) ≠ [] ∧ NMwf s6 ∧
      ¬ (nmR1 f6 s6 (rank s6.func_vals s6.num_points)).value ≤
        (nmR1 f6 s6 (rank s6.func_vals s6.num_points)).vals.getD
          (rank s6.func_vals s6.num_points).low 0 ∧
      (nmR1 f6 s6 (rank s6.func_vals s6.num_points)).vals.getD
          (rank s6.func_vals s6.num_points).nextHigh 0 ≤
        (nmR1 f6 s6 (rank s6.func_vals s6.num_points)).value ∧
      (nmR1 f6 s6 (rank s6.func_vals s6.num_points)).vals.getD
          (rank s6.func_vals s6.num_points).nextHigh 0 ≤
        (nmR2con f6 s6 (rank s6.func_vals s6.num_points)).value) ∧
    (nmInit? f6 ([[0, 0], [4, 0]] : List (List ℚ)) = some
      { simplex := [[0, 0], [4, 0]],
        func_vals := ([[0, 0], [4, 0]] : List (List ℚ)).map f6,
        simplex_sums :=
          dimension_sums ([[0, 0], [4, 0]] : List (List ℚ))
            ([[0, 0], [4, 0]] : List (List ℚ)).length,
        num_evals := 0,
        num_points := ([[0, 0], [4, 0]] : List (List ℚ)).length,
        num_dims := ([[0, 0], [4, 0]] : List (List ℚ)).length } ∧
     (nmIterate f6 s6 (rank s6.func_vals s6.num_points)).num_evals =
       s6.num_evals + 2 + s6.num_dims ∧
     (∀ i, i < s6.num_points → i ≠ (rank s6.func_vals s6.num_points).low →
        (nmIterate f6 s6 (rank s6.func_vals s6.num_points)).func_vals.getD i 0 =
          f6 (shrinkPoint s6.num_dims
              ((nmR2con f6 s6 (rank s6.func_vals s6.num_points)).simplex.getD
                (rank s6.func_vals s6.num_points).low [])
              ((nmR2con f6 s6 (rank s6.func_vals s6.num_points)).simplex.getD i []))) ∧
     (nmIterate f6 s6 (rank s6.func_vals s6.num_points)).func_vals.getD
         (rank s6.func_vals s6.num_points).low 0 =
       (nmR2con f6 s6 (rank s6.func_vals s6.num_points)).vals.getD
         (rank s6.func_vals s6.num_points).low 0) := by
  have hne : ([[0, 0], [4, 0]] : List (List ℚ)) ≠ [] := by simp
  have hsq : ∀ row ∈ ([[0, 0], [4, 0]] : List (List ℚ)),
      row.length = ([[0, 0], [4, 0]] : List (List ℚ)).length := by
    intro row hrow
    fin_cases hrow <;> rfl
  have hwf : NMwf s6 := by
    refine ⟨rfl, rfl, ?_, rfl, by norm_num [s6]⟩
    intro row hrow
    fin_cases hrow <;> rfl
  have hr : rank s6.func_vals s6.num_points = ⟨0, 1, 0⟩ := by
    norm_num [rank, rankInit, rankStepFn, s6, show List.range 2 = [0, 1] from rfl]
  have hR1 : nmR1 f6 s6 (rank s6.func_vals s6.num_points) =
      ⟨[[0, 0], [4, 0]], [0, 10], [4, 0], 20⟩ := by
    rw [hr]
    norm_num [nmR1, reflect, reflectTrial, tabulate, f6, s6,
      show List.range 2 = [0, 1] from rfl]
  have hR2 : nmR2con f6 s6 (rank s6.func_vals s6.num_points) =
      ⟨[[0, 0], [2, 0]], [0, 5], [2, 0], 5⟩ := by
    rw [nmR2con, hr]
    rw [show nmR1 f6 s6 ⟨0, 1, 0⟩ = ⟨[[0, 0], [4, 0]], [0, 10], [4, 0], 20⟩ from
      hr ▸ hR1]
    norm_num [reflect, reflectTrial, tabulate, f6, s6,
      show List.range 2 = [0, 1] from rfl]
  have hb1 : ¬ (nmR1 f6 s6 (rank s6.func_vals s6.num_points)).value ≤
      (nmR1 f6 s6 (rank s6.func_vals s6.num_points)).vals.getD
        (rank s6.func_vals s6.num_points).low 0 := by
    rw [hR1, hr]
    norm_num
  have hb2 : (nmR1 f6 s6 (rank s6.func_vals s6.num_points)).vals.getD
      (rank s6.func_vals s6.num_points).nextHigh 0 ≤
      (nmR1 f6 s6 (rank s6.func_vals s6.num_points)).value := by
    rw [hR1, hr]
    norm_num
  have hb3 : (nmR1 f6 s6 (rank s6.func_vals s6.num_points)).vals.getD
      (rank s6.func_vals s6.num_points).nextHigh 0 ≤
      (nmR2con f6 s6 (rank s6.func_vals s6.num_points)).value := by
    rw [hR1, hR2, hr]
    norm_num
  exact ⟨⟨hne, hwf, hb1, hb2, hb3⟩,
    C6_init_and_shrink f6 [[0, 0], [4, 0]] hne hsq s6 hwf hb1 hb2 hb3⟩

lemma reflect_commit_facts (nd : Nat) (f : List α → α)
    (simplex : List (List α)) (vals sums : List α) (iw : Nat) (factor : α)
    (hiw : iw < vals.length) (hiws : iw < simplex.length)
    (hrow : (simplex.getD iw []).length = nd)
    (hc : f (reflectTrial nd sums (simplex.getD iw []) factor) <
      vals.getD iw 0) :
    (reflect nd f simplex vals sums iw factor).vals.getD iw 0 =
      f (reflectTrial nd sums (simplex.getD iw []) factor) ∧
    (∀ i, i ≠ iw →
       (reflect nd f simplex vals sums iw factor).vals.getD i 0 =
         vals.getD i 0) ∧
    (reflect nd f simplex vals sums iw factor).simplex.getD iw [] =
      reflectTrial nd sums (simplex.getD iw []) factor ∧
    (∀ i, i ≠ iw →
       (reflect nd f simplex vals sums iw factor).simplex.getD i [] =
         simplex.getD i []) := by
  rw [reflect_of_lt nd f simplex vals sums iw factor hc]
  dsimp only
  refine ⟨?_, ?_, ?_, ?_⟩
  · rw [getD_set_self _ _ _ _ hiw]
  · intro i hi
    rw [getD_set_ne _ _ _ _ _ (fun h => hi h.symm)]
  · rw [getD_set_self _ _ _ _ hiws, hrow]
    have hlen : (reflectTrial nd sums (simplex.getD iw []) factor).length = nd := by
      unfold reflectTrial
      exact tabulate_length _ _
    calc tabulate nd (fun j =>
            if j < nd then (reflectTrial nd sums (simplex.getD iw []) factor).getD j 0
            else (simplex.getD iw []).getD j 0)
        = tabulate nd (fun j =>
            (reflectTrial nd sums (simplex.getD iw []) factor).getD j 0) := by
          apply tabulate_congr
          intro j hj
          rw [if_pos hj]
      _ = reflectTrial nd sums (simplex.getD iw []) factor :=
          tabulate_getD_eq_self _ nd 0 hlen
  · intro i hi
    rw [getD_set_ne _ _ _ _ _ (fun h => hi h.symm)]

/-- Shape preservation of the contraction attempt, for any ranking result. -/
lemma nmR2con_wf (f : List α → α) (s : NMState α) (r : Rank)
    (hvl : s.func_vals.length = s.num_points)
    (hsl : s.simplex.length = s.num_points)
    (hrows' : ∀ i, i < s.num_points →
      (s.simplex.getD i []).length = s.num_dims) :
    (nmR2con f s r).simplex.length = s.num_points ∧
    (nmR2con f s r).vals.length = s.num_points ∧
    (∀ i, i < s.num_points →
       ((nmR2con f s r).simplex.getD i []).length = s.num_dims) := by
  have hl1 := reflect_lengths s.num_dims f s.simplex s.func_vals
    s.simplex_sums r.high (-1)
  have hl2 := reflect_lengths s.num_dims f (nmR1 f s r).simplex
    (nmR1 f s r).vals (nmR1 f s r).sums r.high (1 / 2)
  refine ⟨?_, ?_, ?_⟩
  · rw [nmR2con, hl2.1, nmR1, hl1.1, hsl]
  · rw [nmR2con, hl2.2.1, nmR1, hl1.2.1, hvl]
  · intro i hi
    rw [nmR2con, hl2.2.2.2 i (by rw [nmR1, hl1.1, hsl]; omega)]
    rw [nmR1, hl1.2.2.2 i (by rw [hsl]; omega)]
    exact hrows' i hi

lemma not_converged_low_lt_high (ftol EPS : α) (s : NMState α)
    (hnp : 2 ≤ s.num_points) (hft : 0 < ftol) (hEPS : 0 < EPS)
    (hnc : ¬ nmTolerance EPS s (rank s.func_vals s.num_points) < ftol) :
    s.func_vals.getD (rank s.func_vals s.num_points).low 0 <
      s.func_vals.getD (rank s.func_vals s.num_points).high 0 := by
  obtain ⟨hlow, hhigh, hnh, hne, hminle, hlatest, hmax, hsnd⟩ :=
    rank_inv s.func_vals s.num_points hnp
  have hle : s.func_vals.getD (rank s.func_vals s.num_points).low 0 ≤
      s.func_vals.getD (rank s.func_vals s.num_points).high 0 :=
    hminle (rank s.func_vals s.num_points).high hhigh
  rcases lt_or_eq_of_le hle with hlt | heq
  · exact hlt
  · exfalso
    apply hnc
    unfold nmTolerance
    rw [← heq, sub_self, abs_zero, mul_zero, zero_div]
    exact hft

/-- C1 (amended): in every non-converged, within-budget iteration the
geometric operator first reflects the worst vertex with factor `-1.0`; if the
reflected value is better than OR EQUAL TO the current best value
(the source compares with `<=`), it attempts an expansion with factor `2.0`
and keeps whichever of reflection/expansion is better as the new worst
vertex; else if the reflected value is worse than or equal to the second-worst
value it attempts a contraction with factor `0.5`, and when the contracted
value is still no better than the pre-contraction second-worst value it
performs a shrink that moves every vertex except the best halfway toward the
best vertex, re-evaluates those vertices, and fully recomputes the cached
dimension sums; otherwise the reflected vertex is simply accepted as the new
worst vertex. -/
theorem C1_amended (MAX_ITERS : Nat) (ftol EPS : α) (f : List α → α)
    (s : NMState α) (hwf : NMwf s) (hft : 0 < ftol) (hEPS : 0 < EPS)
    (hnc : ¬ nmTolerance EPS s (rank s.func_vals s.num_points) < ftol)
    (hbud : ¬ MAX_ITERS ≤ s.num_evals) :
    nmStep MAX_ITERS ftol EPS f s =
      StepResult.next (nmIterate f s (rank s.func_vals s.num_points)) ∧
    (nmR1 f s (rank s.func_vals s.num_points)).value =
      f (reflectTrial s.num_dims s.simplex_sums
          (s.simplex.getD (rank s.func_vals s.num_points).high []) (-1)) ∧
    ((nmR1 f s (rank s.func_vals s.num_points)).value ≤
       (nmR1 f s (rank s.func_vals s.num_points)).vals.getD
         (rank s.func_vals s.num_points).low 0 →
       nmIterate f s (rank s.func_vals s.num_points) =
         { s with simplex := (nmR2exp f s (rank s.func_vals s.num_points)).simplex,
                  func_vals := (nmR2exp f s (rank s.func_vals s.num_points)).vals,
                  simplex_sums := (nmR2exp f s (rank s.func_vals s.num_points)).sums,
                  num_evals := s.num_evals + 2 } ∧
       (nmR1 f s (rank s.func_vals s.num_points)).simplex.getD
           (rank s.func_vals s.num_points).high [] =
         reflectTrial s.num_dims s.simplex_sums
           (s.simplex.getD (rank s.func_vals s.num_points).high []) (-1) ∧
       (nmR2exp f s (rank s.func_vals s.num_points)).simplex.getD
           (rank s.func_vals s.num_points).high [] =
         (if (nmR2exp f s (rank s.func_vals s.num_points)).value <
             (nmR1 f s (rank s.func_vals s.num_points)).value
          then reflectTrial s.num_dims (nmR1 f s (rank s.func_vals s.num_points)).sums
            (reflectTrial s.num_dims s.simplex_sums
              (s.simplex.getD (rank s.func_vals s.num_points).high []) (-1)) 2
          else reflectTrial s.num_dims s.simplex_sums
            (s.simplex.getD (rank s.func_vals s.num_points).high []) (-1)) ∧
       (nmR2exp f s (rank s.func_vals s.num_points)).vals.getD
           (rank s.func_vals s.num_points).high 0 =
         min (nmR2exp f s (rank s.func_vals s.num_points)).value
           (nmR1 f s (rank s.func_vals s.num_points)).value ∧
       (∀ i, i < s.num_points → i ≠ (rank s.func_vals s.num_points).high →
          (nmR2exp f s (rank s.func_vals s.num_points)).simplex.getD i [] =
            s.simplex.getD i [] ∧
          (nmR2exp f s (rank s.func_vals s.num_points)).vals.getD i 0 =
            s.func_vals.getD i 0)) ∧
    (¬ (nmR1 f s (rank s.func_vals s.num_points)).value ≤
       (nmR1 f s (rank s.func_vals s.num_points)).vals.getD
         (rank s.func_vals s.num_points).low 0 →
     (nmR1 f s (rank s.func_vals s.num_points)).vals.getD
         (rank s.func_vals s.num_points).nextHigh 0 ≤
       (nmR1 f s (rank s.func_vals s.num_points)).value →
       ((nmR1 f s (rank s.func_vals s.num_points)).vals.getD
           (rank s.func_vals s.num_points).nextHigh 0 ≤
          (nmR2con f s (rank s.func_vals s.num_points)).value →
          (∀ i, i < s.num_points → i ≠ (rank s.func_vals s.num_points).low →
             (nmIterate f s (rank s.func_vals s.num_points)).simplex.getD i [] =
               shrinkPoint s.num_dims
                 ((nmR2con f s (rank s.func_vals s.num_points)).simplex.getD
                   (rank s.func_vals s.num_points).low [])
                 ((nmR2con f s (rank s.func_vals s.num_points)).simplex.getD i []) ∧
             (nmIterate f s (rank s.func_vals s.num_points)).func_vals.getD i 0 =
               f (shrinkPoint s.num_dims
                 ((nmR2con f s (rank s.func_vals s.num_points)).simplex.getD
                   (rank s.func_vals s.num_points).low [])
                 ((nmR2con f s (rank s.func_vals s.num_points)).simplex.getD i []))) ∧
          (nmIterate f s (rank s.func_vals s.num_points)).simplex.getD
              (rank s.func_vals s.num_points).low [] =
            (nmR2con f s (rank s.func_vals s.num_points)).simplex.getD
              (rank s.func_vals s.num_points).low [] ∧
          (nmIterate f s (rank s.func_vals s.num_points)).simplex_sums =
            dimension_sums
              (nmIterate f s (rank s.func_vals s.num_points)).simplex s.num_dims) ∧
       (¬ (nmR1 f s (rank s.func_vals s.num_points)).vals.getD
           (rank s.func_vals s.num_points).nextHigh 0 ≤
          (nmR2con f s (rank s.func_vals s.num_points)).value →
          nmIterate f s (rank s.func_vals s.num_points) =
            { s with simplex := (nmR2con f s (rank s.func_vals s.num_points)).simplex,
                     func_vals := (nmR2con f s (rank s.func_vals s.num_points)).vals,
                     simplex_sums := (nmR2con f s (rank s.func_vals s.num_points)).sums,
                     num_evals := s.num_evals + 2 })) ∧
    (¬ (nmR1 f s (rank s.func_vals s.num_points)).value ≤
       (nmR1 f s (rank s.func_vals s.num_points)).vals.getD
         (rank s.func_vals s.num_points).low 0 →
     ¬ (nmR1 f s (rank s.func_vals s.num_points)).vals.getD
         (rank s.func_vals s.num_points).nextHigh 0 ≤
       (nmR1 f s (rank s.func_vals s.num_points)).value →
       nmIterate f s (rank s.func_vals s.num_points) =
         { s with simplex := (nmR1 f s (rank s.func_vals s.num_points)).simplex,
                  func_vals := (nmR1 f s (rank s.func_vals s.num_points)).vals,
                  simplex_sums := (nmR1 f s (rank s.func_vals s.num_points)).sums,
                  num_evals := s.num_evals + 1 } ∧
       (nmIterate f s (rank s.func_vals s.num_points)).simplex.getD
           (rank s.func_vals s.num_points).high [] =
         reflectTrial s.num_dims s.simplex_sums
           (s.simplex.getD (rank s.func_vals s.num_points).high []) (-1) ∧
       (nmIterate f s (rank s.func_vals s.num_points)).func_vals.getD
           (rank s.func_vals s.num_points).high 0 =
         (nmR1 f s (rank s.func_vals s.num_points)).value) := by
  obtain ⟨hvl, hsl, hrows, hsums, hnp⟩ := hwf
  have hrows' : ∀ i, i < s.num_points →
      (s.simplex.getD i []).length = s.num_dims := by
    intro i hi
    apply hrows
    rw [getD_of_lt s.simplex i [] (by omega)]
    exact List.get_mem _ _ _
  obtain ⟨hlow, hhigh, hnh, hnehl, hminle, hlatest, hmax, hsnd⟩ :=
    rank_inv s.func_vals s.num_points hnp
  have hlh : s.func_vals.getD (rank s.func_vals s.num_points).low 0 <
      s.func_vals.getD (rank s.func_vals s.num_points).high 0 :=
    not_converged_low_lt_high ftol EPS s hnp hft hEPS hnc
  have hlhne : (rank s.func_vals s.num_points).low ≠
      (rank s.func_vals s.num_points).high := by
    intro h
    rw [h] at hlh
    exact lt_irrefl _ hlh
  have hval1 : (nmR1 f s (rank s.func_vals s.num_points)).value =
      f (reflectTrial s.num_dims s.simplex_sums
        (s.simplex.getD (rank s.func_vals s.num_points).high []) (-1)) := by
    rw [nmR1]
    exact reflect_value _ _ _ _ _ _ _
  have hl1 := reflect_lengths s.num_dims f s.simplex s.func_vals
    s.simplex_sums (rank s.func_vals s.num_points).high (-1)
  refine ⟨nmStep_next_eq MAX_ITERS ftol EPS f s hnc hbud, hval1, ?_, ?_, ?_⟩
  · -- expansion branch
    intro h1
    have hcommit1 : f (reflectTrial s.num_dims s.simplex_sums
        (s.simplex.getD (rank s.func_vals s.num_points).high []) (-1)) <
        s.func_vals.getD (rank s.func_vals s.num_points).high 0 := by
      by_contra hncom
      have hr1 := reflect_of_ge s.num_dims f s.simplex s.func_vals
        s.simplex_sums (rank s.func_vals s.num_points).high (-1) hncom
      rw [nmR1, hr1] at h1
      dsimp only at h1
      have h2 : s.func_vals.getD (rank s.func_vals s.num_points).high 0 ≤
          f (reflectTrial s.num_dims s.simplex_sums
            (s.simplex.getD (rank s.func_vals s.num_points).high []) (-1)) :=
        le_of_not_lt hncom
      linarith
    have hcf := reflect_commit_facts s.num_dims f s.simplex s.func_vals
      s.simplex_sums (rank s.func_vals s.num_points).high (-1)
      (by omega) (by omega)
      (hrows' (rank s.func_vals s.num_points).high hhigh) hcommit1
    have hrow1 : (nmR1 f s (rank s.func_vals s.num_points)).simplex.getD
        (rank s.func_vals s.num_points).high [] =
        reflectTrial s.num_dims s.simplex_sums
          (s.simplex.getD (rank s.func_vals s.num_points).high []) (-1) := by
      rw [nmR1]
      exact hcf.2.2.1
    have hv1high : (nmR1 f s (rank s.func_vals s.num_points)).vals.getD
        (rank s.func_vals s.num_points).high 0 =
        (nmR1 f s (rank s.func_vals s.num_points)).value := by
      rw [hval1, nmR1]
      exact hcf.1
    have hval2 : (nmR2exp f s (rank s.func_vals s.num_points)).value =
        f (reflectTrial s.num_dims (nmR1 f s (rank s.func_vals s.num_points)).sums
          (reflectTrial s.num_dims s.simplex_sums
            (s.simplex.getD (rank s.func_vals s.num_points).high []) (-1)) 2) := by
      rw [nmR2exp, reflect_value, hrow1]
    refine ⟨nmIterate_expand_eq f s (rank s.func_vals s.num_points) h1,
      hrow1, ?_, ?_, ?_⟩
    · by_cases hex : (nmR2exp f s (rank s.func_vals s.num_points)).value <
          (nmR1 f s (rank s.func_vals s.num_points)).value
      · rw [if_pos hex]
        have hc2 : f (reflectTrial s.num_dims
            (nmR1 f s (rank s.func_vals s.num_points)).sums
            ((nmR1 f s (rank s.func_vals s.num_points)).simplex.getD
              (rank s.func_vals s.num_points).high []) 2) <
            (nmR1 f s (rank s.func_vals s.num_points)).vals.getD
              (rank s.func_vals s.num_points).high 0 := by
          rw [hrow1, hv1high, ← hval2]
          exact hex
        have hcf2 := reflect_commit_facts s.num_dims f
          (nmR1 f s (rank s.func_vals s.num_points)).simplex
          (nmR1 f s (rank s.func_vals s.num_points)).vals
          (nmR1 f s (rank s.func_vals s.num_points)).sums
          (rank s.func_vals s.num_points).high 2
          (by rw [nmR1, hl1.2.1]; omega) (by rw [nmR1, hl1.1]; omega)
          (by rw [hrow1]; unfold reflectTrial; exact tabulate_length _ _) hc2
        rw [nmR2exp]
        rw [hcf2.2.2.1, hrow1]
      · rw [if_neg hex]
        have hncom2 : ¬ f (reflectTrial s.num_dims
            (nmR1 f s (rank s.func_vals s.num_points)).sums
            ((nmR1 f s (rank s.func_vals s.num_points)).simplex.getD
              (rank s.func_vals s.num_points).high []) 2) <
            (nmR1 f s (rank s.func_vals s.num_points)).vals.getD
              (rank s.func_vals s.num_points).high 0 := by
          rw [hrow1, hv1high, ← hval2]
          exact hex
        have hr2 := reflect_of_ge s.num_dims f
          (nmR1 f s (rank s.func_vals s.num_points)).simplex
          (nmR1 f s (rank s.func_vals s.num_points)).vals
          (nmR1 f s (rank s.func_vals s.num_points)).sums
          (rank s.func_vals s.num_points).high 2 hncom2
        rw [nmR2exp, hr2]
        dsimp only
        exact hrow1
    · by_cases hex : (nmR2exp f s (rank s.func_vals s.num_points)).value <
          (nmR1 f s (rank s.func_vals s.num_points)).value
      · have hc2 : f (reflectTrial s.num_dims
            (nmR1 f s (rank s.func_vals s.num_points)).sums
            ((nmR1 f s (rank s.func_vals s.num_points)).simplex.getD
              (rank s.func_vals s.num_points).high []) 2) <
            (nmR1 f s (rank s.func_vals s.num_points)).vals.getD
              (rank s.func_vals s.num_points).high 0 := by
          rw [hrow1, hv1high, ← hval2]
          exact hex
        have hcf2 := reflect_commit_facts s.num_dims f
          (nmR1 f s (rank s.func_vals s.num_points)).simplex
          (nmR1 f s (rank s.func_vals s.num_points)).vals
          (nmR1 f s (rank s.func_vals s.num_points)).sums
          (rank s.func_vals s.num_points).high 2
          (by rw [nmR1, hl1.2.1]; omega) (by rw [nmR1, hl1.1]; omega)
          (by rw [hrow1]; unfold reflectTrial; exact tabulate_length _ _) hc2
        have : (nmR2exp f s (rank s.func_vals s.num_points)).vals.getD
            (rank s.func_vals s.num_points).high 0 =
            (nmR2exp f s (rank s.func_vals s.num_points)).value := by
          rw [hval2, nmR2exp]
          rw [show f (reflectTrial s.num_dims
              (nmR1 f s (rank s.func_vals s.num_points)).sums
              (reflectTrial s.num_dims s.simplex_sums
                (s.simplex.getD (rank s.func_vals s.num_points).high []) (-1)) 2) =
              f (reflectTrial s.num_dims
              (nmR1 f s (rank s.func_vals s.num_points)).sums
              ((nmR1 f s (rank s.func_vals s.num_points)).simplex.getD
                (rank s.func_vals s.num_points).high []) 2) from by rw [hrow1]]
          exact hcf2.1
        rw [this]
        exact (min_eq_left (le_of_lt hex)).symm
      · have hncom2 : ¬ f (reflectTrial s.num_dims
            (nmR1 f s (rank s.func_vals s.num_points)).sums
            ((nmR1 f s (rank s.func_vals s.num_points)).simplex.getD
              (rank s.func_vals s.num_points).high []) 2) <
            (nmR1 f s (rank s.func_vals s.num_points)).vals.getD
              (rank s.func_vals s.num_points).high 0 := by
          rw [hrow1, hv1high, ← hval2]
          exact hex
        have hr2 := reflect_of_ge s.num_dims f
          (nmR1 f s (rank s.func_vals s.num_points)).simplex
          (nmR1 f s (rank s.func_vals s.num_points)).vals
          (nmR1 f s (rank s.func_vals s.num_points)).sums
          (rank s.func_vals s.num_points).high 2 hncom2
        have hvals2 : (nmR2exp f s (rank s.func_vals s.num_points)).vals =
            (nmR1 f s (rank s.func_vals s.num_points)).vals := by
          rw [nmR2exp, hr2]
        rw [hvals2, hv1high]
        exact (min_eq_right (le_of_not_lt hex)).symm
    · intro i hi hne
      by_cases hex : (nmR2exp f s (rank s.func_vals s.num_points)).value <
          (nmR1 f s (rank s.func_vals s.num_points)).value
      · have hc2 : f (reflectTrial s.num_dims
            (nmR1 f s (rank s.func_vals s.num_points)).sums
            ((nmR1 f s (rank s.func_vals s.num_points)).simplex.getD
              (rank s.func_vals s.num_points).high []) 2) <
            (nmR1 f s (rank s.func_vals s.num_points)).vals.getD
              (rank s.func_vals s.num_points).high 0 := by
          rw [hrow1, hv1high, ← hval2]
          exact hex
        have hcf2 := reflect_commit_facts s.num_dims f
          (nmR1 f s (rank s.func_vals s.num_points)).simplex
          (nmR1 f s (rank s.func_vals s.num_points)).vals
          (nmR1 f s (rank s.func_vals s.num_points)).sums
          (rank s.func_vals s.num_points).high 2
          (by rw [nmR1, hl1.2.1]; omega) (by rw [nmR1, hl1.1]; omega)
          (by rw [hrow1]; unfold reflectTrial; exact tabulate_length _ _) hc2
        constructor
        · rw [nmR2exp, hcf2.2.2.2 i hne, nmR1, hcf.2.2.2 i hne]
        · rw [nmR2exp, hcf2.2.1 i hne, nmR1, hcf.2.1 i hne]
      · have hncom2 : ¬ f (reflectTrial s.num_dims
            (nmR1 f s (rank s.func_vals s.num_points)).sums
            ((nmR1 f s (rank s.func_vals s.num_points)).simplex.getD
              (rank s.func_vals s.num_points).high []) 2) <
            (nmR1 f s (rank s.func_vals s.num_points)).vals.getD
              (rank s.func_vals s.num_points).high 0 := by
          rw [hrow1, hv1high, ← hval2]
          exact hex
        have hr2 := reflect_of_ge s.num_dims f
          (nmR1 f s (rank s.func_vals s.num_points)).simplex
          (nmR1 f s (rank s.func_vals s.num_points)).vals
          (nmR1 f s (rank s.func_vals s.num_points)).sums
          (rank s.func_vals s.num_points).high 2 hncom2
        constructor
        · rw [nmR2exp, hr2]
          dsimp only
          rw [nmR1, hcf.2.2.2 i hne]
        · rw [nmR2exp, hr2]
          dsimp only
          rw [nmR1, hcf.2.1 i hne]
  · -- contraction branch
    intro h1 h2
    constructor
    · intro h3
      have hr2wf := nmR2con_wf f s (rank s.func_vals s.num_points) hvl hsl hrows'
      have hshr := nmShrink_spec s.num_dims s.num_points f
        (nmR2con f s (rank s.func_vals s.num_points)).simplex
        (nmR2con f s (rank s.func_vals s.num_points)).vals
        (rank s.func_vals s.num_points).low hr2wf.1 hr2wf.2.1 hr2wf.2.2 hlow
      rw [nmIterate_shrink_eq f s (rank s.func_vals s.num_points) h1 h2 h3]
      dsimp only
      refine ⟨?_, hshr.2.2.2.1, rfl⟩
      intro i hi hne
      exact ⟨hshr.2.2.1 i hi hne, hshr.2.2.2.2.1 i hi hne⟩
    · intro h3
      exact nmIterate_contract_eq f s (rank s.func_vals s.num_points) h1 h2 h3
  · -- plain acceptance branch
    intro h1 h2
    have hcommit1 : f (reflectTrial s.num_dims s.simplex_sums
        (s.simplex.getD (rank s.func_vals s.num_points).high []) (-1)) <
        s.func_vals.getD (rank s.func_vals s.num_points).high 0 := by
      by_contra hncom
      have hr1 := reflect_of_ge s.num_dims f s.simplex s.func_vals
        s.simplex_sums (rank s.func_vals s.num_points).high (-1) hncom
      apply h2
      rw [nmR1, hr1]
      dsimp only
      have hnhle : s.func_vals.getD (rank s.func_vals s.num_points).nextHigh 0 ≤
          s.func_vals.getD (rank s.func_vals s.num_points).high 0 :=
        hmax (rank s.func_vals s.num_points).nextHigh hnh
      exact le_trans hnhle (le_of_not_lt hncom)
    have hcf := reflect_commit_facts s.num_dims f s.simplex s.func_vals
      s.simplex_sums (rank s.func_vals s.num_points).high (-1)
      (by omega) (by omega)
      (hrows' (rank s.func_vals s.num_points).high hhigh) hcommit1
    refine ⟨nmIterate_accept_eq f s (rank s.func_vals s.num_points) h1 h2, ?_, ?_⟩
    · rw [nmIterate_accept_eq f s (rank s.func_vals s.num_points) h1 h2]
      dsimp only
      rw [nmR1]
      exact hcf.2.2.1
    · rw [nmIterate_accept_eq f s (rank s.func_vals s.num_points) h1 h2]
      dsimp only
      rw [hval1, nmR1]
      exact hcf.1


/-- A crafted objective for the boundary case: the reflected point
`[1/3,-1,-1]` has value exactly equal to the best value 1, and the expansion
point `[0,-2,-2]` improves further. -/
def f4 : List ℚ → ℚ := fun v =>
  if v = [1 / 3, -1, -1] then 1
  else if v = [0, -2, -2] then 0
  else if v = [0, 0, 0] then 1
  else if v = [1, 1, 1] then 5
  else if v = [2, 0, 0] then 2
  else 0

/-- A concrete consistent 3-point state in 3 columns with values `[1, 5, 2]`
and column sums `[3, 1, 1]`. -/
def s1 : NMState ℚ :=
  ⟨[[0, 0, 0], [1, 1, 1], [2, 0, 0]], [1, 5, 2], [3, 1, 1], 0, 3, 3⟩

/-- C1 counterexample: an iteration whose ranking does not report convergence
and whose reflected value (1) is NOT strictly better than the best value (1)
and NOT worse-or-equal than the second-worst (2); the claim then demands that
the reflected vertex be simply accepted as the new worst vertex, but the code
(whose expand test is `reflection <= func_vals_[index_low]`) attempts the
expansion and keeps the expansion point `[0, -2, -2]`, not the reflected
point `[1/3, -1, -1]`. -/
theorem C1_counterexample :
    ¬ nmTolerance (1:ℚ) s1 (rank s1.func_vals s1.num_points) < 1 ∧
    (nmR1 f4 s1 (rank s1.func_vals s1.num_points)).value =
      s1.func_vals.getD (rank s1.func_vals s1.num_points).low 0 ∧
    (nmR1 f4 s1 (rank s1.func_vals s1.num_points)).value <
      s1.func_vals.getD (rank s1.func_vals s1.num_points).nextHigh 0 ∧
    (nmIterate f4 s1 (rank s1.func_vals s1.num_points)).simplex.getD
        (rank s1.func_vals s1.num_points).high [] = [0, -2, -2] ∧
    reflectTrial s1.num_dims s1.simplex_sums
        (s1.simplex.getD (rank s1.func_vals s1.num_points).high []) (-1) =
      [1 / 3, -1, -1] ∧
    ([0, -2, -2] : List ℚ) ≠ [1 / 3, -1, -1] := by
  have hr : rank s1.func_vals s1.num_points = ⟨0, 1, 2⟩ := by
    norm_num [rank, rankInit, rankStepFn, s1,
      show List.range 3 = [0, 1, 2] from rfl]
  have ht1 : reflectTrial s1.num_dims s1.simplex_sums
      (s1.simplex.getD 1 []) (-1) = [1 / 3, -1, -1] := by
    norm_num [reflectTrial, tabulate, s1, show List.range 3 = [0, 1, 2] from rfl]
  have hR1 : nmR1 f4 s1 (rank s1.func_vals s1.num_points) =
      ⟨[[0, 0, 0], [1 / 3, -1, -1], [2, 0, 0]], [1, 1, 2], [7 / 3, -1, -1], 1⟩ := by
    rw [hr, nmR1]
    norm_num [reflect, reflectTrial, tabulate, f4, s1,
      show List.range 3 = [0, 1, 2] from rfl]
  have hIT : (nmIterate f4 s1 (rank s1.func_vals s1.num_points)).simplex.getD 1 [] =
      [0, -2, -2] := by
    rw [hr]
    norm_num [nmIterate, nmR1, reflect, reflectTrial, tabulate, f4, s1,
      show List.range 3 = [0, 1, 2] from rfl]
  refine ⟨?_, ?_, ?_, ?_, ?_, by norm_num⟩
  · rw [hr]
    norm_num [nmTolerance, s1]
  · rw [hR1, hr]
    norm_num [s1]
  · rw [hR1, hr]
    norm_num [s1]
  · rw [show (rank s1.func_vals s1.num_points).high = 1 from by rw [hr]]
    exact hIT
  · rw [show (rank s1.func_vals s1.num_points).high = 1 from by rw [hr]]
    exact ht1

theorem C1_amended_witness :
    NMwf s1 ∧ (0:ℚ) < 1 ∧ (0:ℚ) < 1 ∧
    ¬ nmTolerance (1:ℚ) s1 (rank s1.func_vals s1.num_points) < 1 ∧
    ¬ (100:Nat) ≤ s1.num_evals ∧
    nmStep 100 (1:ℚ) 1 f4 s1 =
      StepResult.next (nmIterate f4 s1 (rank s1.func_vals s1.num_points)) := by
  have hwf : NMwf s1 := by
    refine ⟨rfl, rfl, ?_, rfl, by norm_num [s1]⟩
    intro row hrow
    fin_cases hrow <;> rfl
  have hnc : ¬ nmTolerance (1:ℚ) s1 (rank s1.func_vals s1.num_points) < 1 := by
    rw [show rank s1.func_vals s1.num_points = ⟨0, 1, 2⟩ from by
      norm_num [rank, rankInit, rankStepFn, s1,
        show List.range 3 = [0, 1, 2] from rfl]]
    norm_num [nmTolerance, s1]
  have hbud : ¬ (100:Nat) ≤ s1.num_evals := by norm_num [s1]
  exact ⟨hwf, by norm_num, by norm_num, hnc, hbud,
    (C1_amended 100 1 1 f4 s1 hwf (by norm_num) (by norm_num) hnc hbud).1⟩

lemma runNM_succ_next (MAX_ITERS : Nat) (ftol EPS : α) (f : List α → α)
    (fuel : Nat) (s s' : NMState α)
    (h : nmStep MAX_ITERS ftol EPS f s = StepResult.next s') :
    runNM MAX_ITERS ftol EPS f (fuel + 1) s = runNM MAX_ITERS ftol EPS f fuel s' := by
  simp only [runNM]
  rw [h]

lemma runNM_succ_conv (MAX_ITERS : Nat) (ftol EPS : α) (f : List α → α)
    (fuel : Nat) (s sf : NMState α) (m : List α)
    (h : nmStep MAX_ITERS ftol EPS f s = StepResult.converged m sf) :
    runNM MAX_ITERS ftol EPS f (fuel + 1) s = RunOutcome.ok m sf := by
  simp only [runNM]
  rw [h]

/-- A crafted objective: the reflection `[-4,0]` of the initial worst vertex
is perfect (value 0, tying the best), the expansion `[-8,0]` is bad (5), and
all other points score their first coordinate. -/
def f3 : List ℚ → ℚ := fun v =>
  if v = [-4, 0] then 0 else if v = [-8, 0] then 5 else v.getD 0 0

/-- C3 counterexample: with `MAX_ITERS_ = 1`, the run on the square simplex
`[[0,0],[4,0]]` passes the budget check at counter 0, burns 2 evaluations in
its first iteration, and converges successfully at the start of the second
iteration with the counter at 2 — exceeding `max_evaluations = 1`, which the
claim says can never happen for a successful run. -/
theorem C3_counterexample :
    minimizeNM 3 1 (1:ℚ) 1 f3 [[0, 0], [4, 0]] =
      some (RunOutcome.ok [-4, 0] ⟨[[-4, 0], [0, 0]], [0, 0], [-4, 0], 2, 2, 2⟩) ∧
    finalEvals? (minimizeNM 3 1 (1:ℚ) 1 f3 [[0, 0], [4, 0]]) = some 2 ∧
    (1:Nat) < 2 := by
  have hinit : nmInit? f3 ([[0, 0], [4, 0]] : List (List ℚ)) =
      some ⟨[[0, 0], [4, 0]], [0, 4], [4, 0], 0, 2, 2⟩ := by
    norm_num [nmInit?, evalRows?, readCoords?, dimension_sums, tabulate, f3,
      show List.range 2 = [0, 1] from rfl]
  have hs1 : nmStep 1 (1:ℚ) 1 f3 ⟨[[0, 0], [4, 0]], [0, 4], [4, 0], 0, 2, 2⟩ =
      StepResult.next ⟨[[0, 0], [-4, 0]], [0, 0], [-4, 0], 2, 2, 2⟩ := by
    norm_num [nmStep, nmTolerance, rank, rankInit, rankStepFn, nmIterate,
      reflect, reflectTrial, tabulate, f3, show List.range 2 = [0, 1] from rfl]
  have hs2 : nmStep 1 (1:ℚ) 1 f3 ⟨[[0, 0], [-4, 0]], [0, 0], [-4, 0], 2, 2, 2⟩ =
      StepResult.converged [-4, 0]
        ⟨[[-4, 0], [0, 0]], [0, 0], [-4, 0], 2, 2, 2⟩ := by
    norm_num [nmStep, nmTolerance, rank, rankInit, rankStepFn, nmConvergeState,
      listSwap, show List.range 2 = [0, 1] from rfl]
  have hrun : runNM 1 (1:ℚ) 1 f3 3 ⟨[[0, 0], [4, 0]], [0, 4], [4, 0], 0, 2, 2⟩ =
      RunOutcome.ok [-4, 0] ⟨[[-4, 0], [0, 0]], [0, 0], [-4, 0], 2, 2, 2⟩ := by
    rw [show (3:Nat) = 2 + 1 from rfl,
        runNM_succ_next 1 1 1 f3 2 _ _ hs1,
        show (2:Nat) = 1 + 1 from rfl,
        runNM_succ_conv 1 1 1 f3 1 _ _ _ hs2]
  have hmin : minimizeNM 3 1 (1:ℚ) 1 f3 [[0, 0], [4, 0]] =
      some (RunOutcome.ok [-4, 0] ⟨[[-4, 0], [0, 0]], [0, 0], [-4, 0], 2, 2, 2⟩) := by
    rw [minimizeNM, hinit, Option.map_some', hrun]
  refine ⟨hmin, ?_, by omega⟩
  rw [hmin]
  rfl

/-- C3 (amended): the budget check `num_evals_ >= MAX_ITERS_` happens at the
start of each non-converged iteration, before any increment, and raises the
error exactly then; a within-budget iteration then increments the counter by
exactly 2 up front (covering a possible expansion or contraction), decrements
it by 1 in the plain-acceptance branch (net cost 1), and adds `num_dims_`
(the row count of the input) more after a shrink.  Because the check precedes
the burn, a successful run's final counter may exceed `max_evaluations` (see
the counterexample). -/
theorem C3_amended (MAX_ITERS : Nat) (ftol EPS : α) (f : List α → α)
    (s : NMState α)
    (hnc : ¬ nmTolerance EPS s (rank s.func_vals s.num_points) < ftol) :
    (MAX_ITERS ≤ s.num_evals →
       nmStep MAX_ITERS ftol EPS f s = StepResult.maxItersExceeded) ∧
    (¬ MAX_ITERS ≤ s.num_evals →
       nmStep MAX_ITERS ftol EPS f s =
         StepResult.next (nmIterate f s (rank s.func_vals s.num_points)) ∧
       ((nmR1 f s (rank s.func_vals s.num_points)).value ≤
          (nmR1 f s (rank s.func_vals s.num_points)).vals.getD
            (rank s.func_vals s.num_points).low 0 →
          (nmIterate f s (rank s.func_vals s.num_points)).num_evals =
            s.num_evals + 2) ∧
       (¬ (nmR1 f s (rank s.func_vals s.num_points)).value ≤
          (nmR1 f s (rank s.func_vals s.num_points)).vals.getD
            (rank s.func_vals s.num_points).low 0 →
        (nmR1 f s (rank s.func_vals s.num_points)).vals.getD
            (rank s.func_vals s.num_points).nextHigh 0 ≤
          (nmR1 f s (rank s.func_vals s.num_points)).value →
          ((nmR1 f s (rank s.func_vals s.num_points)).vals.getD
              (rank s.func_vals s.num_points).nextHigh 0 ≤
             (nmR2con f s (rank s.func_vals s.num_points)).value →
             (nmIterate f s (rank s.func_vals s.num_points)).num_evals =
               s.num_evals + 2 + s.num_dims) ∧
          (¬ (nmR1 f s (rank s.func_vals s.num_points)).vals.getD
              (rank s.func_vals s.num_points).nextHigh 0 ≤
             (nmR2con f s (rank s.func_vals s.num_points)).value →
             (nmIterate f s (rank s.func_vals s.num_points)).num_evals =
               s.num_evals + 2)) ∧
       (¬ (nmR1 f s (rank s.func_vals s.num_points)).value ≤
          (nmR1 f s (rank s.func_vals s.num_points)).vals.getD
            (rank s.func_vals s.num_points).low 0 →
        ¬ (nmR1 f s (rank s.func_vals s.num_points)).vals.getD
            (rank s.func_vals s.num_points).nextHigh 0 ≤
          (nmR1 f s (rank s.func_vals s.num_points)).value →
          (nmIterate f s (rank s.func_vals s.num_points)).num_evals =
            s.num_evals + 1)) := by
  refine ⟨nmStep_maxIters_eq MAX_ITERS ftol EPS f s hnc, ?_⟩
  intro hbud
  refine ⟨nmStep_next_eq MAX_ITERS ftol EPS f s hnc hbud, ?_, ?_, ?_⟩
  · intro h1
    rw [nmIterate_expand_eq f s (rank s.func_vals s.num_points) h1]
  · intro h1 h2
    constructor
    · intro h3
      rw [nmIterate_shrink_eq f s (rank s.func_vals s.num_points) h1 h2 h3]
    · intro h3
      rw [nmIterate_contract_eq f s (rank s.func_vals s.num_points) h1 h2 h3]
  · intro h1 h2
    rw [nmIterate_accept_eq f s (rank s.func_vals s.num_points) h1 h2]

theorem C3_amended_witness :
    ¬ nmTolerance (1:ℚ) s1 (rank s1.func_vals s1.num_points) < 1 ∧
    ¬ (100:Nat) ≤ s1.num_evals ∧
    (nmR1 f4 s1 (rank s1.func_vals s1.num_points)).value ≤
      (nmR1 f4 s1 (rank s1.func_vals s1.num_points)).vals.getD
        (rank s1.func_vals s1.num_points).low 0 ∧
    nmStep 100 (1:ℚ) 1 f4 s1 =
      StepResult.next (nmIterate f4 s1 (rank s1.func_vals s1.num_points)) ∧
    (nmIterate f4 s1 (rank s1.func_vals s1.num_points)).num_evals =
      s1.num_evals + 2 := by
  have hr : rank s1.func_vals s1.num_points = ⟨0, 1, 2⟩ := by
    norm_num [rank, rankInit, rankStepFn, s1,
      show List.range 3 = [0, 1, 2] from rfl]
  have hnc : ¬ nmTolerance (1:ℚ) s1 (rank s1.func_vals s1.num_points) < 1 := by
    rw [hr]
    norm_num [nmTolerance, s1]
  have hbud : ¬ (100:Nat) ≤ s1.num_evals := by norm_num [s1]
  have h1 : (nmR1 f4 s1 (rank s1.func_vals s1.num_points)).value ≤
      (nmR1 f4 s1 (rank s1.func_vals s1.num_points)).vals.getD
        (rank s1.func_vals s1.num_points).low 0 := by
    rw [hr, nmR1]
    norm_num [reflect, reflectTrial, tabulate, f4, s1,
      show List.range 3 = [0, 1, 2] from rfl]
  have hc := C3_amended 100 1 1 f4 s1 hnc
  exact ⟨hnc, hbud, h1, (hc.2 hbud).1, (hc.2 hbud).2.1 h1⟩

end NelderMead
